import Mathlib

/-!
Verification of the rs-ach ACH file parser (src/parser.rs, src/records.rs,
src/error.rs, src/lib.rs) against its natural-language specification.

Strings are embedded as `List Char`; Rust byte indices coincide with
character indices on the ASCII inputs the format prescribes.  Fallible
Rust functions returning `Result<T, AchError>` become `Except AchError T`.
-/

namespace RsAch

/-- Unicode White_Space test, mirroring Rust `char::is_whitespace`
(used by `str::trim`). -/
def isRustWhitespace (c : Char) : Bool :=
  let n := c.toNat
  n == 9 || n == 10 || n == 11 || n == 12 || n == 13 || n == 32 ||
  n == 0x85 || n == 0xA0 || n == 0x1680 ||
  (0x2000 ≤ n && n ≤ 0x200A) ||
  n == 0x2028 || n == 0x2029 || n == 0x202F || n == 0x205F || n == 0x3000

/-- Rust `str::trim`: remove leading and trailing whitespace. -/
def trim (s : List Char) : List Char :=
  ((s.dropWhile isRustWhitespace).reverse.dropWhile isRustWhitespace).reverse

/-- Failure kinds of Rust `u64::from_str` (`std::num::ParseIntError`),
restricted to those reachable for an unsigned target type. -/
inductive ParseIntErrorKind : Type
  | Empty
  | InvalidDigit
  | PosOverflow
  deriving DecidableEq

/-- Digit-accumulation loop of `u64::from_str` with the `u64` overflow
check (`checked_mul`/`checked_add` against `2^64`). -/
def u64Digits : List Char → Nat → Except ParseIntErrorKind Nat
  | [], acc => .ok acc
  | c :: rest, acc =>
    if c.isDigit then
      let acc2 := acc * 10 + (c.toNat - 48)
      if acc2 < 2 ^ 64 then u64Digits rest acc2
      else .error .PosOverflow
    else .error .InvalidDigit

/-- Rust `u64::from_str`: empty input is `Empty`; a single-character
sign is `InvalidDigit`; an optional leading plus sign is consumed;
then the digit loop runs. -/
def u64FromStr (s : List Char) : Except ParseIntErrorKind Nat :=
  match s with
  | [] => .error .Empty
  | ['+'] => .error .InvalidDigit
  | '+' :: rest => u64Digits rest 0
  | _ => u64Digits s 0

/-- One piece of Rust `str::lines`: the terminating newline was already
split off; a single trailing carriage return is removed. -/
def stripCR (l : List Char) : List Char :=
  if l.getLast? = some '\r' then l.dropLast else l

/-- Worker for `splitLines`; `cur` holds the current piece reversed. -/
def splitLinesAux (cur : List Char) : List Char → List (List Char)
  | [] => if cur = [] then [] else [cur.reverse]
  | c :: rest =>
    if c = '\n' then stripCR cur.reverse :: splitLinesAux [] rest
    else splitLinesAux (c :: cur) rest

/-- Rust `str::lines`: split after every newline; a piece ending in a
newline drops it and one preceding carriage return; a final piece
without a newline is kept verbatim; a trailing newline yields no extra
empty line. -/
def splitLines (s : List Char) : List (List Char) :=
  splitLinesAux [] s

/-- Error type of the parser (src/error.rs `AchError`). -/
inductive AchError : Type
  | InvalidRecordType (code : List Char)
  | InvalidLineLength (len : Nat)
  | InvalidNumber (field : String) (source : ParseIntErrorKind)
  | InvalidStructure (msg : String)
  | EmptyFile
  | IncompleteBatch (msg : String)
  deriving DecidableEq

/-- File Header Record, record type 1 (src/records.rs `FileHeader`). -/
structure FileHeader : Type where
  record_type : List Char
  priority_code : List Char
  immediate_destination : List Char
  immediate_origin : List Char
  file_creation_date : List Char
  file_creation_time : List Char
  file_id_modifier : List Char
  record_size : List Char
  blocking_factor : List Char
  format_code : List Char
  immediate_destination_name : List Char
  immediate_origin_name : List Char
  reference_code : List Char
  deriving DecidableEq

/-- Batch Header Record, record type 5 (src/records.rs `BatchHeader`). -/
structure BatchHeader : Type where
  record_type : List Char
  service_class_code : List Char
  company_name : List Char
  company_discretionary_data : List Char
  company_identification : List Char
  standard_entry_class_code : List Char
  company_entry_description : List Char
  company_descriptive_date : List Char
  effective_entry_date : List Char
  settlement_date : List Char
  originator_status_code : List Char
  originating_dfi_identification : List Char
  batch_number : List Char
  deriving DecidableEq

/-- Addenda Record, record type 7 (src/records.rs `Addenda`). -/
structure Addenda : Type where
  record_type : List Char
  addenda_type_code : List Char
  payment_related_information : List Char
  addenda_sequence_number : List Char
  entry_detail_sequence_number : List Char
  deriving DecidableEq

/-- Entry Detail Record, record type 6 (src/records.rs `EntryDetail`). -/
structure EntryDetail : Type where
  record_type : List Char
  transaction_code : List Char
  receiving_dfi_identification : List Char
  check_digit : List Char
  dfi_account_number : List Char
  amount : Nat
  individual_identification_number : List Char
  individual_name : List Char
  discretionary_data : List Char
  addenda_record_indicator : List Char
  trace_number : List Char
  addenda : List Addenda
  deriving DecidableEq

/-- Batch Control Record, record type 8 (src/records.rs `BatchControl`). -/
structure BatchControl : Type where
  record_type : List Char
  service_class_code : List Char
  entry_addenda_count : Nat
  entry_hash : Nat
  total_debit_amount : Nat
  total_credit_amount : Nat
  company_identification : List Char
  message_authentication_code : List Char
  reserved : List Char
  originating_dfi_identification : List Char
  batch_number : List Char
  deriving DecidableEq

/-- File Control Record, record type 9 (src/records.rs `FileControl`). -/
structure FileControl : Type where
  record_type : List Char
  batch_count : Nat
  block_count : Nat
  entry_addenda_count : Nat
  entry_hash : Nat
  total_debit_amount : Nat
  total_credit_amount : Nat
  reserved : List Char
  deriving DecidableEq

/-- A batch: header, entries, control (src/lib.rs `Batch`). -/
structure Batch : Type where
  header : BatchHeader
  entries : List EntryDetail
  control : BatchControl
  deriving DecidableEq

/-- A parsed file: header, batches, control (src/lib.rs `AchFile`). -/
structure AchFile : Type where
  file_header : FileHeader
  batches : List Batch
  file_control : FileControl
  deriving DecidableEq

/-- The half-open slice `&line[a..b]` of Rust, as characters. -/
def slice (l : List Char) (a b : Nat) : List Char :=
  (l.drop a).take (b - a)

/-- `get_record_type` (src/parser.rs): first character of a line as a
one-character slice; the empty line is `InvalidLineLength 0`. -/
def get_record_type (l : List Char) : Except AchError (List Char) :=
  if l.isEmpty then .error (.InvalidLineLength 0)
  else .ok (slice l 0 1)

/-- `validate_line_length` (src/parser.rs): a line must be exactly 94
characters. -/
def validate_line_length (l : List Char) : Except AchError Unit :=
  if l.length ≠ 94 then .error (.InvalidLineLength l.length)
  else .ok ()

/-- `parse_u64` (src/parser.rs): trim, then parse as `u64`, wrapping a
failure as `InvalidNumber` with the field name. -/
def parse_u64 (s : List Char) (field : String) : Except AchError Nat :=
  match u64FromStr (trim s) with
  | .ok n => .ok n
  | .error e => .error (.InvalidNumber field e)

/-- `parse_file_header` (src/parser.rs): decode a record type 1 line. -/
def parse_file_header (l : List Char) : Except AchError FileHeader :=
  match validate_line_length l with
  | .error e => .error e
  | .ok _ =>
    let record_type := slice l 0 1
    if record_type ≠ ['1'] then .error (.InvalidRecordType record_type)
    else .ok {
      record_type := record_type
      priority_code := slice l 1 3
      immediate_destination := slice l 3 13
      immediate_origin := slice l 13 23
      file_creation_date := slice l 23 29
      file_creation_time := slice l 29 33
      file_id_modifier := slice l 33 34
      record_size := slice l 34 37
      blocking_factor := slice l 37 39
      format_code := slice l 39 40
      immediate_destination_name := slice l 40 63
      immediate_origin_name := slice l 63 86
      reference_code := slice l 86 94 }

/-- `parse_batch_header` (src/parser.rs): decode a record type 5 line. -/
def parse_batch_header (l : List Char) : Except AchError BatchHeader :=
  match validate_line_length l with
  | .error e => .error e
  | .ok _ =>
    let record_type := slice l 0 1
    if record_type ≠ ['5'] then .error (.InvalidRecordType record_type)
    else .ok {
      record_type := record_type
      service_class_code := slice l 1 4
      company_name := slice l 4 20
      company_discretionary_data := slice l 20 40
      company_identification := slice l 40 50
      standard_entry_class_code := slice l 50 53
      company_entry_description := slice l 53 63
      company_descriptive_date := slice l 63 69
      effective_entry_date := slice l 69 75
      settlement_date := slice l 75 78
      originator_status_code := slice l 78 79
      originating_dfi_identification := slice l 79 87
      batch_number := slice l 87 94 }

/-- `parse_entry_detail` (src/parser.rs): decode a record type 6 line;
the amount slice is trimmed and parsed as `u64`. -/
def parse_entry_detail (l : List Char) : Except AchError EntryDetail :=
  match validate_line_length l with
  | .error e => .error e
  | .ok _ =>
    let record_type := slice l 0 1
    if record_type ≠ ['6'] then .error (.InvalidRecordType record_type)
    else
      match u64FromStr (trim (slice l 29 39)) with
      | .error e => .error (.InvalidNumber "amount" e)
      | .ok amount =>
        .ok {
          record_type := record_type
          transaction_code := slice l 1 3
          receiving_dfi_identification := slice l 3 11
          check_digit := slice l 11 12
          dfi_account_number := slice l 12 29
          amount := amount
          individual_identification_number := slice l 39 54
          individual_name := slice l 54 76
          discretionary_data := slice l 76 78
          addenda_record_indicator := slice l 78 79
          trace_number := slice l 79 94
          addenda := [] }

/-- `parse_addenda` (src/parser.rs): decode a record type 7 line. -/
def parse_addenda (l : List Char) : Except AchError Addenda :=
  match validate_line_length l with
  | .error e => .error e
  | .ok _ =>
    let record_type := slice l 0 1
    if record_type ≠ ['7'] then .error (.InvalidRecordType record_type)
    else .ok {
      record_type := record_type
      addenda_type_code := slice l 1 3
      payment_related_information := slice l 3 83
      addenda_sequence_number := slice l 83 87
      entry_detail_sequence_number := slice l 87 94 }

/-- `parse_batch_control` (src/parser.rs): decode a record type 8 line
with four numeric fields. -/
def parse_batch_control (l : List Char) : Except AchError BatchControl :=
  match validate_line_length l with
  | .error e => .error e
  | .ok _ =>
    let record_type := slice l 0 1
    if record_type ≠ ['8'] then .error (.InvalidRecordType record_type)
    else
      match parse_u64 (slice l 4 10) "entry_addenda_count" with
      | .error e => .error e
      | .ok entry_addenda_count =>
        match parse_u64 (slice l 10 20) "entry_hash" with
        | .error e => .error e
        | .ok entry_hash =>
          match parse_u64 (slice l 20 32) "total_debit_amount" with
          | .error e => .error e
          | .ok total_debit_amount =>
            match parse_u64 (slice l 32 44) "total_credit_amount" with
            | .error e => .error e
            | .ok total_credit_amount =>
              .ok {
                record_type := slice l 0 1
                service_class_code := slice l 1 4
                entry_addenda_count := entry_addenda_count
                entry_hash := entry_hash
                total_debit_amount := total_debit_amount
                total_credit_amount := total_credit_amount
                company_identification := slice l 44 54
                message_authentication_code := slice l 54 73
                reserved := slice l 73 79
                originating_dfi_identification := slice l 79 87
                batch_number := slice l 87 94 }

/-- `parse_file_control` (src/parser.rs): decode a record type 9 line
with six numeric fields. -/
def parse_file_control (l : List Char) : Except AchError FileControl :=
  match validate_line_length l with
  | .error e => .error e
  | .ok _ =>
    let record_type := slice l 0 1
    if record_type ≠ ['9'] then .error (.InvalidRecordType record_type)
    else
      match parse_u64 (slice l 1 7) "batch_count" with
      | .error e => .error e
      | .ok batch_count =>
        match parse_u64 (slice l 7 13) "block_count" with
        | .error e => .error e
        | .ok block_count =>
          match parse_u64 (slice l 13 21) "entry_addenda_count" with
          | .error e => .error e
          | .ok entry_addenda_count =>
            match parse_u64 (slice l 21 31) "entry_hash" with
            | .error e => .error e
            | .ok entry_hash =>
              match parse_u64 (slice l 31 43) "total_debit_amount" with
              | .error e => .error e
              | .ok total_debit_amount =>
                match parse_u64 (slice l 43 55) "total_credit_amount" with
                | .error e => .error e
                | .ok total_credit_amount =>
                  .ok {
                    record_type := slice l 0 1
                    batch_count := batch_count
                    block_count := block_count
                    entry_addenda_count := entry_addenda_count
                    entry_hash := entry_hash
                    total_debit_amount := total_debit_amount
                    total_credit_amount := total_credit_amount
                    reserved := slice l 55 94 }

/-- Message of the `InvalidStructure` error raised by the top-level loop
of `parse_ach_file` on an unexpected record type. -/
def unexpectedTopMsg (rt : List Char) (idx : Nat) : String :=
  "Unexpected record type \x27" ++ String.mk rt ++ "\x27 at line " ++ toString idx

/-- Message of the `InvalidStructure` error raised inside `parse_batch`
on an unexpected record type. -/
def unexpectedInBatchMsg (rt : List Char) (idx : Nat) : String :=
  "Unexpected record type \x27" ++ String.mk rt ++ "\x27 in batch at line " ++ toString idx

/-- The inner addenda loop of `parse_batch` (src/parser.rs lines 81-90):
while the next line classifies as type 7, decode it and append it to the
open entry; stop at the first other line, leaving it unconsumed. -/
def collectAddenda : List (List Char) → EntryDetail →
    Except AchError (EntryDetail × List (List Char))
  | [], e => .ok (e, [])
  | l :: rest, e =>
    match get_record_type l with
    | .error err => .error err
    | .ok rt =>
      if rt = ['7'] then
        match parse_addenda l with
        | .error err => .error err
        | .ok a => collectAddenda rest { e with addenda := e.addenda ++ [a] }
      else .ok (e, l :: rest)

/-- The lines left unconsumed by the addenda loop are a suffix of its
input. -/
theorem collectAddenda_suffix (ls : List (List Char)) (e : EntryDetail)
    (e2 : EntryDetail) (r : List (List Char))
    (h : collectAddenda ls e = .ok (e2, r)) : r.IsSuffix ls := by
  induction ls generalizing e with
  | nil =>
    simp only [collectAddenda] at h
    cases h
    exact List.suffix_rfl
  | cons l rest ih =>
    simp only [collectAddenda] at h
    cases hg : get_record_type l with
    | error err => rw [hg] at h; exact absurd h (by simp)
    | ok rt =>
      rw [hg] at h
      simp only at h
      by_cases h7 : rt = ['7']
      · rw [if_pos h7] at h
        cases hp : parse_addenda l with
        | error err => rw [hp] at h; exact absurd h (by simp)
        | ok a =>
          rw [hp] at h
          simp only at h
          exact (ih _ h).trans (List.suffix_cons l rest)
      · rw [if_neg h7] at h
        cases h
        exact List.suffix_rfl

/-- The entry loop of `parse_batch` (src/parser.rs lines 73-100): consume
entry-detail lines each followed by its addenda run, stop at a type 8
line without consuming it, reject any other record type.  `idx` is the
absolute index of the first line of `ls` among the filtered lines and is
used only in error messages; the returned index is the absolute index of
the first unconsumed line. -/
def parseEntries (idx : Nat) (ls : List (List Char)) :
    Except AchError (List EntryDetail × Nat × List (List Char)) :=
  match ls with
  | [] => .ok ([], idx, [])
  | l :: rest =>
    match get_record_type l with
    | .error e => .error e
    | .ok rt =>
      if rt = ['6'] then
        match parse_entry_detail l with
        | .error e => .error e
        | .ok ed =>
          match hc : collectAddenda rest ed with
          | .error e => .error e
          | .ok (ed2, rest2) =>
            match parseEntries (idx + 1 + (rest.length - rest2.length)) rest2 with
            | .error e => .error e
            | .ok (es, idx3, rem) => .ok (ed2 :: es, idx3, rem)
      else if rt = ['8'] then .ok ([], idx, l :: rest)
      else .error (.InvalidStructure (unexpectedInBatchMsg rt idx))
termination_by ls.length
decreasing_by
  have := (collectAddenda_suffix rest ed ed2 rest2 hc).length_le
  simp only [List.length_cons]
  omega

/-- Auxiliary bounded form of `parseEntries_suffix`. -/
theorem parseEntries_suffix_aux (n : Nat) : ∀ (idx : Nat) (ls : List (List Char)),
    ls.length ≤ n → ∀ (es : List EntryDetail) (i : Nat) (r : List (List Char)),
    parseEntries idx ls = .ok (es, i, r) → r.IsSuffix ls := by
  induction n with
  | zero =>
    intro idx ls hlen es i r h
    match ls with
    | [] =>
      rw [parseEntries] at h
      cases h
      exact List.suffix_rfl
  | succ n ih =>
    intro idx ls hlen es i r h
    match ls with
    | [] =>
      rw [parseEntries] at h
      cases h
      exact List.suffix_rfl
    | l :: rest =>
      rw [parseEntries] at h
      cases hg : get_record_type l with
      | error err => rw [hg] at h; exact absurd h (by simp)
      | ok rt =>
        rw [hg] at h
        simp only at h
        by_cases h6 : rt = ['6']
        · rw [if_pos h6] at h
          cases hp : parse_entry_detail l with
          | error err => rw [hp] at h; exact absurd h (by simp)
          | ok ed =>
            rw [hp] at h
            simp only at h
            split at h
            · exact absurd h (by simp)
            · rename_i ed2 rest2 hc
              have hsfx := collectAddenda_suffix rest ed ed2 rest2 hc
              cases hrec : parseEntries (idx + 1 + (rest.length - rest2.length)) rest2 with
              | error err => rw [hrec] at h; exact absurd h (by simp)
              | ok res =>
                obtain ⟨es1, i1, r1⟩ := res
                rw [hrec] at h
                simp only at h
                cases h
                have hle : rest2.length ≤ n := by
                  have := hsfx.length_le
                  simp only [List.length_cons] at hlen
                  omega
                have : r.IsSuffix rest2 := ih _ rest2 hle _ _ _ hrec
                exact this.trans (hsfx.trans (List.suffix_cons l rest))
        · rw [if_neg h6] at h
          by_cases h8 : rt = ['8']
          · rw [if_pos h8] at h
            cases h
            exact List.suffix_rfl
          · rw [if_neg h8] at h
            exact absurd h (by simp)

/-- The lines left unconsumed by the entry loop are a suffix of its
input. -/
theorem parseEntries_suffix (idx : Nat) (ls : List (List Char))
    (es : List EntryDetail) (i : Nat) (r : List (List Char))
    (h : parseEntries idx ls = .ok (es, i, r)) : r.IsSuffix ls :=
  parseEntries_suffix_aux ls.length idx ls le_rfl es i r h

/-- `parse_batch` (src/parser.rs lines 66-117): decode the batch header
from the current line `l` (at absolute index `idx`), run the entry loop
over the following lines, then require and decode a batch control line;
its absence at end-of-input is `IncompleteBatch`. -/
def parse_batch (idx : Nat) (l : List Char) (rest : List (List Char)) :
    Except AchError (Batch × Nat × List (List Char)) :=
  match parse_batch_header l with
  | .error e => .error e
  | .ok header =>
    match parseEntries (idx + 1) rest with
    | .error e => .error e
    | .ok (entries, idx2, rest2) =>
      match rest2 with
      | [] => .error (.IncompleteBatch "Missing batch control record")
      | cl :: rest3 =>
        match parse_batch_control cl with
        | .error e => .error e
        | .ok control =>
          .ok ({ header := header, entries := entries, control := control },
               idx2 + 1, rest3)

/-- After a successful `parse_batch` the unconsumed lines are strictly
fewer than one plus the lines after the header. -/
theorem parse_batch_length (idx : Nat) (l : List Char)
    (rest : List (List Char)) (b : Batch) (i : Nat) (r : List (List Char))
    (h : parse_batch idx l rest = .ok (b, i, r)) : r.length < rest.length + 1 := by
  rw [parse_batch] at h
  cases hh : parse_batch_header l with
  | error err => rw [hh] at h; exact absurd h (by simp)
  | ok header =>
    rw [hh] at h
    simp only at h
    cases he : parseEntries (idx + 1) rest with
    | error err => rw [he] at h; exact absurd h (by simp)
    | ok res =>
      obtain ⟨entries, idx2, rest2⟩ := res
      rw [he] at h
      simp only at h
      have hsfx := (parseEntries_suffix _ _ _ _ _ he).length_le
      cases rest2 with
      | nil => exact absurd h (by simp)
      | cons cl rest3 =>
        simp only at h
        cases hc : parse_batch_control cl with
        | error err => rw [hc] at h; exact absurd h (by simp)
        | ok control =>
          rw [hc] at h
          simp only at h
          cases h
          simp only [List.length_cons] at hsfx
          omega

/-- The batch loop of `parse_ach_file` (src/parser.rs lines 34-47):
while lines remain, a type 5 line opens a batch, a type 9 line stops the
loop without being consumed, anything else is `InvalidStructure`. -/
def parseTop (idx : Nat) (ls : List (List Char)) :
    Except AchError (List Batch × Nat × List (List Char)) :=
  match ls with
  | [] => .ok ([], idx, [])
  | l :: rest =>
    match get_record_type l with
    | .error e => .error e
    | .ok rt =>
      if rt = ['5'] then
        match hb : parse_batch idx l rest with
        | .error e => .error e
        | .ok (b, idx2, rem) =>
          match parseTop idx2 rem with
          | .error e => .error e
          | .ok (bs, idx3, rem3) => .ok (b :: bs, idx3, rem3)
      else if rt = ['9'] then .ok ([], idx, l :: rest)
      else .error (.InvalidStructure (unexpectedTopMsg rt idx))
termination_by ls.length
decreasing_by
  have := parse_batch_length idx l rest b idx2 rem hb
  simp only [List.length_cons]
  omega

/-- A line is a block-filler line when every character is the padding
digit (the closure in src/parser.rs line 19). -/
def isPadding (l : List Char) : Bool :=
  l.all (fun c => c == '9')

/-- The line filter of `parse_ach_file` (src/parser.rs lines 17-20):
split into physical lines and drop every all-padding line. -/
def filteredLines (content : List Char) : List (List Char) :=
  (splitLines content).filter (fun l => ! isPadding l)

/-- The structural phase of `parse_ach_file` run on the already filtered
lines: file header first, then the batch loop, then a mandatory file
control; lines after the file-control line are not examined. -/
def parseFiltered (ls : List (List Char)) : Except AchError AchFile :=
  match ls with
  | [] => .error .EmptyFile
  | first :: rest =>
    match parse_file_header first with
    | .error e => .error e
    | .ok fh =>
      match parseTop 1 rest with
      | .error e => .error e
      | .ok (batches, _, rem) =>
        match rem with
        | [] => .error (.InvalidStructure "Missing file control record")
        | cl :: _ =>
          match parse_file_control cl with
          | .error e => .error e
          | .ok fc =>
            .ok { file_header := fh, batches := batches, file_control := fc }

/-- `parse_ach_file` (src/parser.rs lines 16-63): the full parse of a
text blob. -/
def parse_ach_file (content : List Char) : Except AchError AchFile :=
  parseFiltered (filteredLines content)

/-- Decidable equality of parse results, for evaluating the parser on
concrete inputs. -/
instance instDecEqExcept {e a : Type} [DecidableEq e] [DecidableEq a] :
    DecidableEq (Except e a) := fun x y =>
  match x, y with
  | .ok v, .ok w =>
    if h : v = w then .isTrue (by rw [h]) else .isFalse (by simp [h])
  | .error v, .error w =>
    if h : v = w then .isTrue (by rw [h]) else .isFalse (by simp [h])
  | .ok _, .error _ => .isFalse (by simp)
  | .error _, .ok _ => .isFalse (by simp)

/-- Sample file-header line (from the repository test suite). -/
def hdrL : List Char := "101 12345678012345678011409020123A094101YOUR BANK              YOUR COMPANY                   ".toList

/-- Sample batch-header line (from the repository test suite). -/
def bhL : List Char := "5200YOUR COMPANY                        1234567890PPDPAYROLL         140903   1123456780000001".toList

/-- Sample entry-detail line with amount 1000 (from the repository test
suite). -/
def edL : List Char := "62212345678011232132         0000001000               ALICE WANDERDUST        1123456780000001".toList

/-- Sample addenda line (from the repository test suite). -/
def adL : List Char := "705HERE IS SOME ADDITIONAL INFORMATION                                             00000000001".toList

/-- Sample batch-control line (from the repository test suite). -/
def bcL : List Char := "820000000400370145870000000150000000000022131234567890                         123456780000001".toList

/-- Sample file-control line (from the repository test suite). -/
def fcL : List Char := "9000001000001000000040037014587000000015000000000002213                                       ".toList

/-- A 94-character file-header line whose first character is X (from
the repository test suite). -/
def xhL : List Char := "X01 12345678012345678011409020123A094101YOUR BANK              YOUR COMPANY                   ".toList

/-- The sample batch-header line without its discriminant. -/
def bhTail : List Char := bhL.tail

/-- The sample entry-detail line without its discriminant. -/
def edTail : List Char := edL.tail

/-- The sample addenda line without its discriminant. -/
def adTail : List Char := adL.tail

/-- The sample file-control line without its discriminant. -/
def fcTail : List Char := fcL.tail

/-- The record decoded from the sample file-header line. -/
def fhRec : FileHeader :=
  ⟨slice hdrL 0 1, slice hdrL 1 3, slice hdrL 3 13, slice hdrL 13 23,
   slice hdrL 23 29, slice hdrL 29 33, slice hdrL 33 34, slice hdrL 34 37,
   slice hdrL 37 39, slice hdrL 39 40, slice hdrL 40 63, slice hdrL 63 86,
   slice hdrL 86 94⟩

/-- The record decoded from the sample batch-header line. -/
def bhRec : BatchHeader :=
  ⟨slice bhL 0 1, slice bhL 1 4, slice bhL 4 20, slice bhL 20 40,
   slice bhL 40 50, slice bhL 50 53, slice bhL 53 63, slice bhL 63 69,
   slice bhL 69 75, slice bhL 75 78, slice bhL 78 79, slice bhL 79 87,
   slice bhL 87 94⟩

/-- The record decoded from the sample entry-detail line. -/
def edRec : EntryDetail :=
  ⟨slice edL 0 1, slice edL 1 3, slice edL 3 11, slice edL 11 12,
   slice edL 12 29, 1000, slice edL 39 54, slice edL 54 76, slice edL 76 78,
   slice edL 78 79, slice edL 79 94, []⟩

/-- The record decoded from the sample addenda line. -/
def adRec : Addenda :=
  ⟨slice adL 0 1, slice adL 1 3, slice adL 3 83, slice adL 83 87,
   slice adL 87 94⟩

/-- The record decoded from the sample batch-control line. -/
def bcRec : BatchControl :=
  ⟨slice bcL 0 1, slice bcL 1 4, 4, 37014587, 15000, 2213, slice bcL 44 54,
   slice bcL 54 73, slice bcL 73 79, slice bcL 79 87, slice bcL 87 94⟩

/-- The record decoded from the sample file-control line. -/
def fcRec : FileControl :=
  ⟨slice fcL 0 1, 1, 1, 4, 37014587, 15000, 2213, slice fcL 55 94⟩

/-- An arbitrary entry-detail record used to exercise the addenda loop. -/
def e0 : EntryDetail :=
  ⟨['6'], ['2', '2'], [], [], [], 0, [], [], [], [], [], []⟩

/-- An input whose file-control line is followed by a further record
line: file header, file control, then a line consisting of X. -/
def cexC3 : List Char :=
  hdrL ++ '\n' :: fcL ++ '\n' :: ['X']

/-- An input that opens a batch and then presents a second batch header
before any batch control. -/
def cexC5 : List Char :=
  hdrL ++ '\n' :: bhL ++ '\n' :: bhL

/-- Every (start, end) byte range read by the six record decoders. -/
def allFieldRanges : List (Nat × Nat) :=
  [(0, 1), (1, 3), (3, 13), (13, 23), (23, 29), (29, 33), (33, 34),
   (34, 37), (37, 39), (39, 40), (40, 63), (63, 86), (86, 94),
   (0, 1), (1, 4), (4, 20), (20, 40), (40, 50), (50, 53), (53, 63),
   (63, 69), (69, 75), (75, 78), (78, 79), (79, 87), (87, 94),
   (0, 1), (1, 3), (3, 11), (11, 12), (12, 29), (29, 39), (39, 54),
   (54, 76), (76, 78), (78, 79), (79, 94),
   (0, 1), (1, 3), (3, 83), (83, 87), (87, 94),
   (0, 1), (1, 4), (4, 10), (10, 20), (20, 32), (32, 44), (44, 54),
   (54, 73), (73, 79), (79, 87), (87, 94),
   (0, 1), (1, 7), (7, 13), (13, 21), (21, 31), (31, 43), (43, 55),
   (55, 94)]

/-- `get_record_type` fails exactly on the empty line, with
`InvalidLineLength 0`. -/
theorem get_record_type_err (l : List Char) (e : AchError)
    (h : get_record_type l = .error e) : l = [] ∧ e = .InvalidLineLength 0 := by
  rw [get_record_type] at h
  by_cases hl : l.isEmpty
  · rw [if_pos hl] at h
    cases h
    exact ⟨List.isEmpty_iff.mp hl, rfl⟩
  · rw [if_neg hl] at h
    exact absurd h (by simp)

/-- `get_record_type` on a nonempty line returns its first character. -/
theorem get_record_type_cons (c : Char) (cs : List Char) :
    get_record_type (c :: cs) = .ok [c] := by
  rw [get_record_type]
  simp [slice]

/-- A wrong-length line is rejected by `parse_file_header` with
`InvalidLineLength`. -/
theorem parse_file_header_len (l : List Char) (h : l.length ≠ 94) :
    parse_file_header l = .error (.InvalidLineLength l.length) := by
  rw [parse_file_header, validate_line_length, if_pos h]

/-- A wrong-length line is rejected by `parse_batch_header` with
`InvalidLineLength`. -/
theorem parse_batch_header_len (l : List Char) (h : l.length ≠ 94) :
    parse_batch_header l = .error (.InvalidLineLength l.length) := by
  rw [parse_batch_header, validate_line_length, if_pos h]

/-- A wrong-length line is rejected by `parse_entry_detail` with
`InvalidLineLength`. -/
theorem parse_entry_detail_len (l : List Char) (h : l.length ≠ 94) :
    parse_entry_detail l = .error (.InvalidLineLength l.length) := by
  rw [parse_entry_detail, validate_line_length, if_pos h]

/-- A wrong-length line is rejected by `parse_addenda` with
`InvalidLineLength`. -/
theorem parse_addenda_len (l : List Char) (h : l.length ≠ 94) :
    parse_addenda l = .error (.InvalidLineLength l.length) := by
  rw [parse_addenda, validate_line_length, if_pos h]

/-- A wrong-length line is rejected by `parse_batch_control` with
`InvalidLineLength`. -/
theorem parse_batch_control_len (l : List Char) (h : l.length ≠ 94) :
    parse_batch_control l = .error (.InvalidLineLength l.length) := by
  rw [parse_batch_control, validate_line_length, if_pos h]

/-- A wrong-length line is rejected by `parse_file_control` with
`InvalidLineLength`. -/
theorem parse_file_control_len (l : List Char) (h : l.length ≠ 94) :
    parse_file_control l = .error (.InvalidLineLength l.length) := by
  rw [parse_file_control, validate_line_length, if_pos h]

/-- A 94-character line with the wrong discriminant is rejected by
`parse_file_header` with `InvalidRecordType`. -/
theorem parse_file_header_code (l : List Char) (h94 : l.length = 94)
    (hc : slice l 0 1 ≠ ['1']) :
    parse_file_header l = .error (.InvalidRecordType (slice l 0 1)) := by
  rw [parse_file_header, validate_line_length]
  simp [h94, hc]

/-- A 94-character line with the wrong discriminant is rejected by
`parse_batch_header` with `InvalidRecordType`. -/
theorem parse_batch_header_code (l : List Char) (h94 : l.length = 94)
    (hc : slice l 0 1 ≠ ['5']) :
    parse_batch_header l = .error (.InvalidRecordType (slice l 0 1)) := by
  rw [parse_batch_header, validate_line_length]
  simp [h94, hc]

/-- A 94-character line with the wrong discriminant is rejected by
`parse_entry_detail` with `InvalidRecordType`. -/
theorem parse_entry_detail_code (l : List Char) (h94 : l.length = 94)
    (hc : slice l 0 1 ≠ ['6']) :
    parse_entry_detail l = .error (.InvalidRecordType (slice l 0 1)) := by
  rw [parse_entry_detail, validate_line_length]
  simp [h94, hc]

/-- A 94-character line with the wrong discriminant is rejected by
`parse_addenda` with `InvalidRecordType`. -/
theorem parse_addenda_code (l : List Char) (h94 : l.length = 94)
    (hc : slice l 0 1 ≠ ['7']) :
    parse_addenda l = .error (.InvalidRecordType (slice l 0 1)) := by
  rw [parse_addenda, validate_line_length]
  simp [h94, hc]

/-- A 94-character line with the wrong discriminant is rejected by
`parse_batch_control` with `InvalidRecordType`. -/
theorem parse_batch_control_code (l : List Char) (h94 : l.length = 94)
    (hc : slice l 0 1 ≠ ['8']) :
    parse_batch_control l = .error (.InvalidRecordType (slice l 0 1)) := by
  rw [parse_batch_control, validate_line_length]
  simp [h94, hc]

/-- A 94-character line with the wrong discriminant is rejected by
`parse_file_control` with `InvalidRecordType`. -/
theorem parse_file_control_code (l : List Char) (h94 : l.length = 94)
    (hc : slice l 0 1 ≠ ['9']) :
    parse_file_control l = .error (.InvalidRecordType (slice l 0 1)) := by
  rw [parse_file_control, validate_line_length]
  simp [h94, hc]

/-- A correctly coded 94-character file-header line decodes to the
documented field slices. -/
theorem parse_file_header_ok (l : List Char) (h94 : l.length = 94)
    (hc : slice l 0 1 = ['1']) :
    parse_file_header l = .ok
      ⟨slice l 0 1, slice l 1 3, slice l 3 13, slice l 13 23, slice l 23 29,
       slice l 29 33, slice l 33 34, slice l 34 37, slice l 37 39,
       slice l 39 40, slice l 40 63, slice l 63 86, slice l 86 94⟩ := by
  rw [parse_file_header, validate_line_length]
  simp [h94, hc]

/-- A correctly coded 94-character batch-header line decodes to the
documented field slices. -/
theorem parse_batch_header_ok (l : List Char) (h94 : l.length = 94)
    (hc : slice l 0 1 = ['5']) :
    parse_batch_header l = .ok
      ⟨slice l 0 1, slice l 1 4, slice l 4 20, slice l 20 40, slice l 40 50,
       slice l 50 53, slice l 53 63, slice l 63 69, slice l 69 75,
       slice l 75 78, slice l 78 79, slice l 79 87, slice l 87 94⟩ := by
  rw [parse_batch_header, validate_line_length]
  simp [h94, hc]

/-- A correctly coded 94-character entry-detail line whose trimmed
amount slice parses as an unsigned integer decodes to the documented
field slices, with that integer as the amount and no addenda. -/
theorem parse_entry_detail_ok (l : List Char) (n : Nat) (h94 : l.length = 94)
    (hc : slice l 0 1 = ['6'])
    (hn : u64FromStr (trim (slice l 29 39)) = .ok n) :
    parse_entry_detail l = .ok
      ⟨slice l 0 1, slice l 1 3, slice l 3 11, slice l 11 12, slice l 12 29,
       n, slice l 39 54, slice l 54 76, slice l 76 78, slice l 78 79,
       slice l 79 94, []⟩ := by
  rw [parse_entry_detail, validate_line_length]
  simp [h94, hc, hn]

/-- A correctly coded 94-character addenda line decodes to the
documented field slices. -/
theorem parse_addenda_ok (l : List Char) (h94 : l.length = 94)
    (hc : slice l 0 1 = ['7']) :
    parse_addenda l = .ok
      ⟨slice l 0 1, slice l 1 3, slice l 3 83, slice l 83 87, slice l 87 94⟩ := by
  rw [parse_addenda, validate_line_length]
  simp [h94, hc]

/-- A correctly coded 94-character batch-control line whose four trimmed
numeric slices parse as unsigned integers decodes to the documented
field slices and numbers. -/
theorem parse_batch_control_ok (l : List Char) (n1 n2 n3 n4 : Nat)
    (h94 : l.length = 94) (hc : slice l 0 1 = ['8'])
    (h1 : u64FromStr (trim (slice l 4 10)) = .ok n1)
    (h2 : u64FromStr (trim (slice l 10 20)) = .ok n2)
    (h3 : u64FromStr (trim (slice l 20 32)) = .ok n3)
    (h4 : u64FromStr (trim (slice l 32 44)) = .ok n4) :
    parse_batch_control l = .ok
      ⟨slice l 0 1, slice l 1 4, n1, n2, n3, n4, slice l 44 54,
       slice l 54 73, slice l 73 79, slice l 79 87, slice l 87 94⟩ := by
  rw [parse_batch_control, validate_line_length]
  simp [h94, hc, parse_u64, h1, h2, h3, h4]

/-- A correctly coded 94-character file-control line whose six trimmed
numeric slices parse as unsigned integers decodes to the documented
field slices and numbers. -/
theorem parse_file_control_ok (l : List Char) (n1 n2 n3 n4 n5 n6 : Nat)
    (h94 : l.length = 94) (hc : slice l 0 1 = ['9'])
    (h1 : u64FromStr (trim (slice l 1 7)) = .ok n1)
    (h2 : u64FromStr (trim (slice l 7 13)) = .ok n2)
    (h3 : u64FromStr (trim (slice l 13 21)) = .ok n3)
    (h4 : u64FromStr (trim (slice l 21 31)) = .ok n4)
    (h5 : u64FromStr (trim (slice l 31 43)) = .ok n5)
    (h6 : u64FromStr (trim (slice l 43 55)) = .ok n6) :
    parse_file_control l = .ok
      ⟨slice l 0 1, n1, n2, n3, n4, n5, n6, slice l 55 94⟩ := by
  rw [parse_file_control, validate_line_length]
  simp [h94, hc, parse_u64, h1, h2, h3, h4, h5, h6]

/-- Errors of `parse_file_header` are never `EmptyFile`, and never
`InvalidLineLength 0` on a nonempty line. -/
theorem parse_file_header_err (l : List Char) (e : AchError)
    (h : parse_file_header l = .error e) :
    e ≠ .EmptyFile ∧ (l ≠ [] → e ≠ .InvalidLineLength 0) := by
  by_cases h94 : l.length = 94
  · by_cases hc : slice l 0 1 = ['1']
    · rw [parse_file_header_ok l h94 hc] at h
      exact absurd h (by simp)
    · rw [parse_file_header_code l h94 hc] at h
      cases h
      exact ⟨by simp, fun _ => by simp⟩
  · rw [parse_file_header_len l h94] at h
    cases h
    refine ⟨by simp, fun hne => ?_⟩
    simp only [ne_eq, AchError.InvalidLineLength.injEq]
    intro h0
    exact hne (List.length_eq_zero.mp h0)

/-- Errors of `parse_batch_header` are never `EmptyFile`, and never
`InvalidLineLength 0` on a nonempty line. -/
theorem parse_batch_header_err (l : List Char) (e : AchError)
    (h : parse_batch_header l = .error e) :
    e ≠ .EmptyFile ∧ (l ≠ [] → e ≠ .InvalidLineLength 0) := by
  by_cases h94 : l.length = 94
  · by_cases hc : slice l 0 1 = ['5']
    · rw [parse_batch_header_ok l h94 hc] at h
      exact absurd h (by simp)
    · rw [parse_batch_header_code l h94 hc] at h
      cases h
      exact ⟨by simp, fun _ => by simp⟩
  · rw [parse_batch_header_len l h94] at h
    cases h
    refine ⟨by simp, fun hne => ?_⟩
    simp only [ne_eq, AchError.InvalidLineLength.injEq]
    intro h0
    exact hne (List.length_eq_zero.mp h0)

/-- Errors of `parse_entry_detail` are never `EmptyFile`, and never
`InvalidLineLength 0` on a nonempty line. -/
theorem parse_entry_detail_err (l : List Char) (e : AchError)
    (h : parse_entry_detail l = .error e) :
    e ≠ .EmptyFile ∧ (l ≠ [] → e ≠ .InvalidLineLength 0) := by
  by_cases h94 : l.length = 94
  · by_cases hc : slice l 0 1 = ['6']
    · rw [parse_entry_detail, validate_line_length] at h
      simp only [h94, hc] at h
      cases hu : u64FromStr (trim (slice l 29 39)) with
      | error k =>
        rw [hu] at h
        simp only [ne_eq, reduceCtorEq, not_false_eq_true, Except.error.injEq] at h
        cases h
        exact ⟨by simp, fun _ => by simp⟩
      | ok n =>
        rw [hu] at h
        exact absurd h (by simp)
    · rw [parse_entry_detail_code l h94 hc] at h
      cases h
      exact ⟨by simp, fun _ => by simp⟩
  · rw [parse_entry_detail_len l h94] at h
    cases h
    refine ⟨by simp, fun hne => ?_⟩
    simp only [ne_eq, AchError.InvalidLineLength.injEq]
    intro h0
    exact hne (List.length_eq_zero.mp h0)

/-- Errors of `parse_addenda` are never `EmptyFile`, and never
`InvalidLineLength 0` on a nonempty line. -/
theorem parse_addenda_err (l : List Char) (e : AchError)
    (h : parse_addenda l = .error e) :
    e ≠ .EmptyFile ∧ (l ≠ [] → e ≠ .InvalidLineLength 0) := by
  by_cases h94 : l.length = 94
  · by_cases hc : slice l 0 1 = ['7']
    · rw [parse_addenda_ok l h94 hc] at h
      exact absurd h (by simp)
    · rw [parse_addenda_code l h94 hc] at h
      cases h
      exact ⟨by simp, fun _ => by simp⟩
  · rw [parse_addenda_len l h94] at h
    cases h
    refine ⟨by simp, fun hne => ?_⟩
    simp only [ne_eq, AchError.InvalidLineLength.injEq]
    intro h0
    exact hne (List.length_eq_zero.mp h0)

/-- Errors of `parse_u64` are always `InvalidNumber`. -/
theorem parse_u64_err (s : List Char) (f : String) (e : AchError)
    (h : parse_u64 s f = .error e) : ∃ k, e = .InvalidNumber f k := by
  rw [parse_u64] at h
  cases hu : u64FromStr (trim s) with
  | error k =>
    rw [hu] at h
    simp only [Except.error.injEq] at h
    exact ⟨k, h.symm⟩
  | ok n =>
    rw [hu] at h
    exact absurd h (by simp)

/-- Errors of `parse_batch_control` are never `EmptyFile`, and never
`InvalidLineLength 0` on a nonempty line. -/
theorem parse_batch_control_err (l : List Char) (e : AchError)
    (h : parse_batch_control l = .error e) :
    e ≠ .EmptyFile ∧ (l ≠ [] → e ≠ .InvalidLineLength 0) := by
  by_cases h94 : l.length = 94
  · by_cases hc : slice l 0 1 = ['8']
    · rw [parse_batch_control, validate_line_length] at h
      simp [h94, hc] at h
      split at h
      next e1 hu0 =>
        simp only [Except.error.injEq] at h
        subst h
        obtain ⟨k, hk⟩ := parse_u64_err _ _ _ hu0
        subst hk
        exact ⟨by simp, fun _ => by simp⟩
      next x0 hx0 =>
        split at h
        next e1 hu1 =>
          simp only [Except.error.injEq] at h
          subst h
          obtain ⟨k, hk⟩ := parse_u64_err _ _ _ hu1
          subst hk
          exact ⟨by simp, fun _ => by simp⟩
        next x1 hx1 =>
          split at h
          next e1 hu2 =>
            simp only [Except.error.injEq] at h
            subst h
            obtain ⟨k, hk⟩ := parse_u64_err _ _ _ hu2
            subst hk
            exact ⟨by simp, fun _ => by simp⟩
          next x2 hx2 =>
            split at h
            next e1 hu3 =>
              simp only [Except.error.injEq] at h
              subst h
              obtain ⟨k, hk⟩ := parse_u64_err _ _ _ hu3
              subst hk
              exact ⟨by simp, fun _ => by simp⟩
            next x3 hx3 => exact absurd h (by simp)
    · rw [parse_batch_control_code l h94 hc] at h
      cases h
      exact ⟨by simp, fun _ => by simp⟩
  · rw [parse_batch_control_len l h94] at h
    cases h
    refine ⟨by simp, fun hne => ?_⟩
    simp only [ne_eq, AchError.InvalidLineLength.injEq]
    intro h0
    exact hne (List.length_eq_zero.mp h0)

/-- Errors of `parse_file_control` are never `EmptyFile`, and never
`InvalidLineLength 0` on a nonempty line. -/
theorem parse_file_control_err (l : List Char) (e : AchError)
    (h : parse_file_control l = .error e) :
    e ≠ .EmptyFile ∧ (l ≠ [] → e ≠ .InvalidLineLength 0) := by
  by_cases h94 : l.length = 94
  · by_cases hc : slice l 0 1 = ['9']
    · rw [parse_file_control, validate_line_length] at h
      simp [h94, hc] at h
      split at h
      next e1 hu0 =>
        simp only [Except.error.injEq] at h
        subst h
        obtain ⟨k, hk⟩ := parse_u64_err _ _ _ hu0
        subst hk
        exact ⟨by simp, fun _ => by simp⟩
      next x0 hx0 =>
        split at h
        next e1 hu1 =>
          simp only [Except.error.injEq] at h
          subst h
          obtain ⟨k, hk⟩ := parse_u64_err _ _ _ hu1
          subst hk
          exact ⟨by simp, fun _ => by simp⟩
        next x1 hx1 =>
          split at h
          next e1 hu2 =>
            simp only [Except.error.injEq] at h
            subst h
            obtain ⟨k, hk⟩ := parse_u64_err _ _ _ hu2
            subst hk
            exact ⟨by simp, fun _ => by simp⟩
          next x2 hx2 =>
            split at h
            next e1 hu3 =>
              simp only [Except.error.injEq] at h
              subst h
              obtain ⟨k, hk⟩ := parse_u64_err _ _ _ hu3
              subst hk
              exact ⟨by simp, fun _ => by simp⟩
            next x3 hx3 =>
              split at h
              next e1 hu4 =>
                simp only [Except.error.injEq] at h
                subst h
                obtain ⟨k, hk⟩ := parse_u64_err _ _ _ hu4
                subst hk
                exact ⟨by simp, fun _ => by simp⟩
              next x4 hx4 =>
                split at h
                next e1 hu5 =>
                  simp only [Except.error.injEq] at h
                  subst h
                  obtain ⟨k, hk⟩ := parse_u64_err _ _ _ hu5
                  subst hk
                  exact ⟨by simp, fun _ => by simp⟩
                next x5 hx5 => exact absurd h (by simp)
    · rw [parse_file_control_code l h94 hc] at h
      cases h
      exact ⟨by simp, fun _ => by simp⟩
  · rw [parse_file_control_len l h94] at h
    cases h
    refine ⟨by simp, fun hne => ?_⟩
    simp only [ne_eq, AchError.InvalidLineLength.injEq]
    intro h0
    exact hne (List.length_eq_zero.mp h0)

/-- Does a line start with the addenda discriminant character? -/
def headIs (c : Char) : List Char → Bool
  | [] => false
  | c2 :: _ => c2 == c

/-- Decode a list of lines as addenda records, in order, stopping at the
first failure.  Used to state what the addenda loop collects. -/
def parseAddendaRun : List (List Char) → Except AchError (List Addenda)
  | [] => .ok []
  | l :: rest =>
    match parse_addenda l with
    | .error e => .error e
    | .ok a =>
      match parseAddendaRun rest with
      | .error e => .error e
      | .ok as => .ok (a :: as)

/-- A successful `parseAddendaRun` yields one record per line. -/
theorem parseAddendaRun_length (ls : List (List Char)) (as : List Addenda)
    (h : parseAddendaRun ls = .ok as) : as.length = ls.length := by
  induction ls generalizing as with
  | nil =>
    rw [parseAddendaRun] at h
    cases h
    rfl
  | cons l rest ih =>
    rw [parseAddendaRun] at h
    cases hp : parse_addenda l with
    | error e => rw [hp] at h; exact absurd h (by simp)
    | ok a =>
      rw [hp] at h
      simp only at h
      cases hr : parseAddendaRun rest with
      | error e => rw [hr] at h; exact absurd h (by simp)
      | ok as1 =>
        rw [hr] at h
        simp only [Except.ok.injEq] at h
        subst h
        simp [ih as1 hr]

/-- Full characterization of the addenda loop on lines without empty
members: it decodes exactly the maximal leading run of type 7 lines,
appends the records to the open entry in encounter order, and leaves
the remaining lines untouched. -/
theorem collectAddenda_spec (ls : List (List Char)) (e : EntryDetail)
    (as : List Addenda) (hne : ∀ l ∈ ls, l ≠ [])
    (hm : parseAddendaRun (ls.takeWhile (headIs '7')) = .ok as) :
    collectAddenda ls e =
      .ok ({ e with addenda := e.addenda ++ as }, ls.dropWhile (headIs '7')) := by
  induction ls generalizing e as with
  | nil =>
    simp only [List.takeWhile_nil, parseAddendaRun, Except.ok.injEq] at hm
    subst hm
    simp [collectAddenda]
  | cons l rest ih =>
    have hlne : l ≠ [] := hne l (List.mem_cons_self l rest)
    match l, hlne with
    | c :: cs, _ =>
      by_cases h7 : c = '7'
      · subst h7
        rw [List.takeWhile_cons] at hm
        simp only [headIs, beq_self_eq_true, if_pos] at hm
        rw [parseAddendaRun] at hm
        cases hp : parse_addenda ('7' :: cs) with
        | error er => rw [hp] at hm; exact absurd hm (by simp)
        | ok a =>
          rw [hp] at hm
          simp only at hm
          cases hr : parseAddendaRun (rest.takeWhile (headIs '7')) with
          | error er => rw [hr] at hm; exact absurd hm (by simp)
          | ok as1 =>
            rw [hr] at hm
            simp only [Except.ok.injEq] at hm
            subst hm
            rw [collectAddenda, get_record_type_cons]
            simp only [if_pos rfl]
            rw [hp]
            simp only
            have := ih { e with addenda := e.addenda ++ [a] } as1
              (fun x hx => hne x (List.mem_cons_of_mem _ hx)) hr
            rw [this]
            simp only [List.dropWhile_cons, headIs, beq_self_eq_true, if_pos]
            simp [List.append_assoc]
      · rw [List.takeWhile_cons] at hm
        have hh : headIs '7' (c :: cs) = false := by
          simp [headIs, h7]
        rw [hh] at hm
        simp only [Bool.false_eq_true, if_false, parseAddendaRun,
          Except.ok.injEq] at hm
        subst hm
        rw [collectAddenda, get_record_type_cons]
        simp only
        have hrt : ¬ ([c] = (['7'] : List Char)) := by
          simp [h7]
        rw [if_neg hrt]
        rw [List.dropWhile_cons, hh]
        simp

/-- Unfolding of the entry loop at an entry-detail line: the decoded
entry receives exactly the addenda of the maximal following run of
type 7 lines, in encounter order, and the loop resumes after that run. -/
theorem parseEntries_entry_step (idx : Nat) (cs : List Char)
    (ls : List (List Char)) (e : EntryDetail) (as : List Addenda)
    (hp : parse_entry_detail ('6' :: cs) = .ok e)
    (hne : ∀ l ∈ ls, l ≠ [])
    (hm : parseAddendaRun (ls.takeWhile (headIs '7')) = .ok as) :
    parseEntries idx (('6' :: cs) :: ls) =
      Except.map
        (fun r => ({ e with addenda := e.addenda ++ as } :: r.1, r.2))
        (parseEntries (idx + 1 + as.length) (ls.dropWhile (headIs '7'))) := by
  have hcoll := collectAddenda_spec ls e as hne hm
  rw [parseEntries, get_record_type_cons]
  simp only [if_pos rfl]
  rw [hp]
  simp only
  have hlen : ls.length - (ls.dropWhile (headIs '7')).length = as.length := by
    have h1 : (ls.takeWhile (headIs '7')).length + (ls.dropWhile (headIs '7')).length
        = ls.length := by
      rw [← List.length_append, List.takeWhile_append_dropWhile]
    have h2 := parseAddendaRun_length _ _ hm
    omega
  split
  next =>
    split
    next a b => rw [hcoll] at b; exact absurd b (by simp)
    next a b c =>
      rw [hcoll] at c
      simp only [Except.ok.injEq, Prod.mk.injEq] at c
      obtain ⟨ha, hb⟩ := c
      subst ha
      subst hb
      rw [hlen]
      cases hrec : parseEntries (idx + 1 + as.length) (ls.dropWhile (headIs '7')) with
      | error er2 => simp [Except.map]
      | ok res =>
        obtain ⟨es1, i1, r1⟩ := res
        simp [Except.map]
  next h => exact absurd trivial h

/-- Errors of the addenda loop are never `EmptyFile`, nor
`InvalidLineLength 0` when no line is empty. -/
theorem collectAddenda_err (ls : List (List Char)) (e : EntryDetail)
    (er : AchError) (h : collectAddenda ls e = .error er) :
    er ≠ .EmptyFile ∧ ((∀ l ∈ ls, l ≠ []) → er ≠ .InvalidLineLength 0) := by
  induction ls generalizing e with
  | nil =>
    rw [collectAddenda] at h
    exact absurd h (by simp)
  | cons l rest ih =>
    rw [collectAddenda] at h
    cases hg : get_record_type l with
    | error err =>
      rw [hg] at h
      simp only [Except.error.injEq] at h
      subst h
      obtain ⟨hl, he⟩ := get_record_type_err l err hg
      subst he
      exact ⟨by simp, fun hne => absurd hl (hne l (List.mem_cons_self l rest))⟩
    | ok rt =>
      rw [hg] at h
      simp only at h
      by_cases h7 : rt = ['7']
      · rw [if_pos h7] at h
        cases hp : parse_addenda l with
        | error err =>
          rw [hp] at h
          simp only [Except.error.injEq] at h
          subst h
          obtain ⟨h1, h2⟩ := parse_addenda_err l _ hp
          exact ⟨h1, fun hne => h2 (hne l (List.mem_cons_self l rest))⟩
        | ok a =>
          rw [hp] at h
          simp only at h
          obtain ⟨h1, h2⟩ := ih _ h
          exact ⟨h1, fun hne => h2 (fun x hx => hne x (List.mem_cons_of_mem _ hx))⟩
      · rw [if_neg h7] at h
        exact absurd h (by simp)

/-- Bounded form: errors of the entry loop are never `EmptyFile`, nor
`InvalidLineLength 0` when no line is empty. -/
theorem parseEntries_err_aux (n : Nat) : ∀ (idx : Nat) (ls : List (List Char)),
    ls.length ≤ n → ∀ er : AchError, parseEntries idx ls = .error er →
    er ≠ .EmptyFile ∧ ((∀ l ∈ ls, l ≠ []) → er ≠ .InvalidLineLength 0) := by
  induction n with
  | zero =>
    intro idx ls hlen er h
    match ls with
    | [] => rw [parseEntries] at h; exact absurd h (by simp)
  | succ n ih =>
    intro idx ls hlen er h
    match ls with
    | [] => rw [parseEntries] at h; exact absurd h (by simp)
    | l :: rest =>
      rw [parseEntries] at h
      cases hg : get_record_type l with
      | error err =>
        rw [hg] at h
        simp only [Except.error.injEq] at h
        subst h
        obtain ⟨hl, he⟩ := get_record_type_err l err hg
        subst he
        exact ⟨by simp, fun hne => absurd hl (hne l (List.mem_cons_self l rest))⟩
      | ok rt =>
        rw [hg] at h
        simp only at h
        by_cases h6 : rt = ['6']
        · rw [if_pos h6] at h
          cases hp : parse_entry_detail l with
          | error err =>
            rw [hp] at h
            simp only [Except.error.injEq] at h
            subst h
            obtain ⟨h1, h2⟩ := parse_entry_detail_err l _ hp
            exact ⟨h1, fun hne => h2 (hne l (List.mem_cons_self l rest))⟩
          | ok ed =>
            rw [hp] at h
            simp only at h
            split at h
            · rename_i err hc
              simp only [Except.error.injEq] at h
              subst h
              obtain ⟨h1, h2⟩ := collectAddenda_err rest ed _ hc
              exact ⟨h1, fun hne =>
                h2 (fun x hx => hne x (List.mem_cons_of_mem _ hx))⟩
            · rename_i ed2 rest2 hc
              have hsfx := collectAddenda_suffix rest ed ed2 rest2 hc
              cases hrec : parseEntries (idx + 1 + (rest.length - rest2.length)) rest2 with
              | error err =>
                rw [hrec] at h
                simp only [Except.error.injEq] at h
                subst h
                have hle : rest2.length ≤ n := by
                  have := hsfx.length_le
                  simp only [List.length_cons] at hlen
                  omega
                obtain ⟨h1, h2⟩ := ih _ rest2 hle _ hrec
                exact ⟨h1, fun hne => h2 (fun x hx =>
                  hne x (List.mem_cons_of_mem _ (hsfx.subset hx)))⟩
              | ok res =>
                obtain ⟨es1, i1, r1⟩ := res
                rw [hrec] at h
                exact absurd h (by simp)
        · rw [if_neg h6] at h
          by_cases h8 : rt = ['8']
          · rw [if_pos h8] at h
            exact absurd h (by simp)
          · rw [if_neg h8] at h
            simp only [Except.error.injEq] at h
            subst h
            exact ⟨by simp, fun _ => by simp⟩

/-- Errors of the entry loop are never `EmptyFile`, nor
`InvalidLineLength 0` when no line is empty. -/
theorem parseEntries_err (idx : Nat) (ls : List (List Char)) (er : AchError)
    (h : parseEntries idx ls = .error er) :
    er ≠ .EmptyFile ∧ ((∀ l ∈ ls, l ≠ []) → er ≠ .InvalidLineLength 0) :=
  parseEntries_err_aux ls.length idx ls le_rfl er h

/-- The lines left unconsumed by a successful `parse_batch` are a
suffix of the lines after the batch-header line. -/
theorem parse_batch_suffix (idx : Nat) (l : List Char)
    (rest : List (List Char)) (b : Batch) (i : Nat) (r : List (List Char))
    (h : parse_batch idx l rest = .ok (b, i, r)) : r.IsSuffix rest := by
  rw [parse_batch] at h
  cases hh : parse_batch_header l with
  | error err => rw [hh] at h; exact absurd h (by simp)
  | ok header =>
    rw [hh] at h
    simp only at h
    cases he : parseEntries (idx + 1) rest with
    | error err => rw [he] at h; exact absurd h (by simp)
    | ok res =>
      obtain ⟨entries, idx2, rest2⟩ := res
      rw [he] at h
      simp only at h
      have hsfx := parseEntries_suffix _ _ _ _ _ he
      cases rest2 with
      | nil => exact absurd h (by simp)
      | cons cl rest3 =>
        simp only at h
        cases hc : parse_batch_control cl with
        | error err => rw [hc] at h; exact absurd h (by simp)
        | ok control =>
          rw [hc] at h
          simp only [Except.ok.injEq, Prod.mk.injEq] at h
          obtain ⟨_, _, hr⟩ := h
          subst hr
          exact ((List.suffix_cons cl rest3).trans hsfx)

/-- Errors of `parse_batch` are never `EmptyFile`, nor
`InvalidLineLength 0` when the header line and the following lines are
all nonempty. -/
theorem parse_batch_err (idx : Nat) (l : List Char)
    (rest : List (List Char)) (er : AchError)
    (h : parse_batch idx l rest = .error er) :
    er ≠ .EmptyFile ∧
    ((l ≠ [] ∧ ∀ x ∈ rest, x ≠ []) → er ≠ .InvalidLineLength 0) := by
  rw [parse_batch] at h
  cases hh : parse_batch_header l with
  | error err =>
    rw [hh] at h
    simp only [Except.error.injEq] at h
    subst h
    obtain ⟨h1, h2⟩ := parse_batch_header_err l _ hh
    exact ⟨h1, fun hne => h2 hne.1⟩
  | ok header =>
    rw [hh] at h
    simp only at h
    cases he : parseEntries (idx + 1) rest with
    | error err =>
      rw [he] at h
      simp only [Except.error.injEq] at h
      subst h
      obtain ⟨h1, h2⟩ := parseEntries_err _ _ _ he
      exact ⟨h1, fun hne => h2 hne.2⟩
    | ok res =>
      obtain ⟨entries, idx2, rest2⟩ := res
      rw [he] at h
      simp only at h
      have hsfx := parseEntries_suffix _ _ _ _ _ he
      cases rest2 with
      | nil =>
        simp only [Except.error.injEq] at h
        subst h
        exact ⟨by simp, fun _ => by simp⟩
      | cons cl rest3 =>
        simp only at h
        cases hc : parse_batch_control cl with
        | error err =>
          rw [hc] at h
          simp only [Except.error.injEq] at h
          subst h
          obtain ⟨h1, h2⟩ := parse_batch_control_err cl _ hc
          refine ⟨h1, fun hne => h2 ?_⟩
          exact hne.2 cl (hsfx.subset (List.mem_cons_self cl rest3))
        | ok control =>
          rw [hc] at h
          exact absurd h (by simp)

/-- Bounded form: the lines left unconsumed by the batch loop are a
suffix of its input. -/
theorem parseTop_suffix_aux (n : Nat) : ∀ (idx : Nat) (ls : List (List Char)),
    ls.length ≤ n → ∀ (bs : List Batch) (i : Nat) (r : List (List Char)),
    parseTop idx ls = .ok (bs, i, r) → r.IsSuffix ls := by
  induction n with
  | zero =>
    intro idx ls hlen bs i r h
    match ls with
    | [] =>
      rw [parseTop] at h
      cases h
      exact List.suffix_rfl
  | succ n ih =>
    intro idx ls hlen bs i r h
    match ls with
    | [] =>
      rw [parseTop] at h
      cases h
      exact List.suffix_rfl
    | l :: rest =>
      rw [parseTop] at h
      cases hg : get_record_type l with
      | error err => rw [hg] at h; exact absurd h (by simp)
      | ok rt =>
        rw [hg] at h
        simp only at h
        by_cases h5 : rt = ['5']
        · rw [if_pos h5] at h
          split at h
          · exact absurd h (by simp)
          · rename_i b idx2 rem hb
            have hlt := parse_batch_length _ _ _ _ _ _ hb
            have hsfx := parse_batch_suffix _ _ _ _ _ _ hb
            cases hrec : parseTop idx2 rem with
            | error err => rw [hrec] at h; exact absurd h (by simp)
            | ok res =>
              obtain ⟨bs1, i1, r1⟩ := res
              rw [hrec] at h
              simp only [Except.ok.injEq, Prod.mk.injEq] at h
              obtain ⟨_, _, hr⟩ := h
              subst hr
              have hle : rem.length ≤ n := by
                simp only [List.length_cons] at hlen
                omega
              exact ((ih idx2 rem hle _ _ _ hrec).trans hsfx).trans
                (List.suffix_cons l rest)
        · rw [if_neg h5] at h
          by_cases h9 : rt = ['9']
          · rw [if_pos h9] at h
            cases h
            exact List.suffix_rfl
          · rw [if_neg h9] at h
            exact absurd h (by simp)

/-- The lines left unconsumed by the batch loop are a suffix of its
input. -/
theorem parseTop_suffix (idx : Nat) (ls : List (List Char))
    (bs : List Batch) (i : Nat) (r : List (List Char))
    (h : parseTop idx ls = .ok (bs, i, r)) : r.IsSuffix ls :=
  parseTop_suffix_aux ls.length idx ls le_rfl bs i r h

/-- Bounded form: errors of the batch loop are never `EmptyFile`, nor
`InvalidLineLength 0` when no line is empty. -/
theorem parseTop_err_aux (n : Nat) : ∀ (idx : Nat) (ls : List (List Char)),
    ls.length ≤ n → ∀ er : AchError, parseTop idx ls = .error er →
    er ≠ .EmptyFile ∧ ((∀ l ∈ ls, l ≠ []) → er ≠ .InvalidLineLength 0) := by
  induction n with
  | zero =>
    intro idx ls hlen er h
    match ls with
    | [] => rw [parseTop] at h; exact absurd h (by simp)
  | succ n ih =>
    intro idx ls hlen er h
    match ls with
    | [] => rw [parseTop] at h; exact absurd h (by simp)
    | l :: rest =>
      rw [parseTop] at h
      cases hg : get_record_type l with
      | error err =>
        rw [hg] at h
        simp only [Except.error.injEq] at h
        subst h
        obtain ⟨hl, he⟩ := get_record_type_err l err hg
        subst he
        exact ⟨by simp, fun hne => absurd hl (hne l (List.mem_cons_self l rest))⟩
      | ok rt =>
        rw [hg] at h
        simp only at h
        by_cases h5 : rt = ['5']
        · rw [if_pos h5] at h
          split at h
          · rename_i err hb
            simp only [Except.error.injEq] at h
            subst h
            obtain ⟨h1, h2⟩ := parse_batch_err _ _ _ _ hb
            refine ⟨h1, fun hne => h2 ?_⟩
            exact ⟨hne l (List.mem_cons_self l rest),
              fun x hx => hne x (List.mem_cons_of_mem _ hx)⟩
          · rename_i b idx2 rem hb
            have hlt := parse_batch_length _ _ _ _ _ _ hb
            have hsfx := parse_batch_suffix _ _ _ _ _ _ hb
            cases hrec : parseTop idx2 rem with
            | error err =>
              rw [hrec] at h
              simp only [Except.error.injEq] at h
              subst h
              have hle : rem.length ≤ n := by
                simp only [List.length_cons] at hlen
                omega
              obtain ⟨h1, h2⟩ := ih idx2 rem hle _ hrec
              exact ⟨h1, fun hne => h2 (fun x hx =>
                hne x (List.mem_cons_of_mem _ (hsfx.subset hx)))⟩
            | ok res =>
              obtain ⟨bs1, i1, r1⟩ := res
              rw [hrec] at h
              exact absurd h (by simp)
        · rw [if_neg h5] at h
          by_cases h9 : rt = ['9']
          · rw [if_pos h9] at h
            exact absurd h (by simp)
          · rw [if_neg h9] at h
            simp only [Except.error.injEq] at h
            subst h
            exact ⟨by simp, fun _ => by simp⟩

/-- Errors of the batch loop are never `EmptyFile`, nor
`InvalidLineLength 0` when no line is empty. -/
theorem parseTop_err (idx : Nat) (ls : List (List Char)) (er : AchError)
    (h : parseTop idx ls = .error er) :
    er ≠ .EmptyFile ∧ ((∀ l ∈ ls, l ≠ []) → er ≠ .InvalidLineLength 0) :=
  parseTop_err_aux ls.length idx ls le_rfl er h

/-- On a nonempty line list, errors of the structural phase are never
`EmptyFile`, nor `InvalidLineLength 0` when no line is empty. -/
theorem parseFiltered_err (ls : List (List Char)) (er : AchError)
    (h : parseFiltered ls = .error er) :
    (ls ≠ [] → er ≠ .EmptyFile) ∧
    ((∀ l ∈ ls, l ≠ []) → er ≠ .InvalidLineLength 0) := by
  match ls with
  | [] =>
    rw [parseFiltered] at h
    cases h
    exact ⟨fun hne => absurd rfl hne, fun _ => by simp⟩
  | first :: rest =>
    rw [parseFiltered] at h
    cases hh : parse_file_header first with
    | error err =>
      rw [hh] at h
      simp only [Except.error.injEq] at h
      subst h
      obtain ⟨h1, h2⟩ := parse_file_header_err first _ hh
      exact ⟨fun _ => h1,
        fun hne => h2 (hne first (List.mem_cons_self first rest))⟩
    | ok fh =>
      rw [hh] at h
      simp only at h
      cases ht : parseTop 1 rest with
      | error err =>
        rw [ht] at h
        simp only [Except.error.injEq] at h
        subst h
        obtain ⟨h1, h2⟩ := parseTop_err _ _ _ ht
        exact ⟨fun _ => h1,
          fun hne => h2 (fun x hx => hne x (List.mem_cons_of_mem _ hx))⟩
      | ok res =>
        obtain ⟨batches, i1, rem⟩ := res
        rw [ht] at h
        simp only at h
        have hsfx := parseTop_suffix _ _ _ _ _ ht
        cases rem with
        | nil =>
          simp only [Except.error.injEq] at h
          subst h
          exact ⟨fun _ => by simp, fun _ => by simp⟩
        | cons cl rem2 =>
          simp only at h
          cases hc : parse_file_control cl with
          | error err =>
            rw [hc] at h
            simp only [Except.error.injEq] at h
            subst h
            obtain ⟨h1, h2⟩ := parse_file_control_err cl _ hc
            refine ⟨fun _ => h1, fun hne => h2 ?_⟩
            exact hne cl (List.mem_cons_of_mem _
              (hsfx.subset (List.mem_cons_self cl rem2)))
          | ok fc =>
            rw [hc] at h
            exact absurd h (by simp)

/-- Every line surviving the padding filter is nonempty: the empty line
vacuously consists only of padding digits. -/
theorem filteredLines_ne_nil (content : List Char) (l : List Char)
    (h : l ∈ filteredLines content) : l ≠ [] := by
  rw [filteredLines, List.mem_filter] at h
  intro hnil
  subst hnil
  simp [isPadding] at h

/-- A type 7 line at an entry-loop position is rejected as
`InvalidStructure`: an addenda line needs an open entry before it. -/
theorem parseEntries_at7 (idx : Nat) (cs : List Char) (ls : List (List Char)) :
    parseEntries idx (('7' :: cs) :: ls) =
      .error (.InvalidStructure (unexpectedInBatchMsg ['7'] idx)) := by
  rw [parseEntries, get_record_type_cons]
  simp only
  rw [if_neg (by simp), if_neg (by simp)]

/-- A type 7 line directly after a batch header is rejected as
`InvalidStructure`. -/
theorem parse_batch_at7 (idx : Nat) (bhl : List Char) (h : BatchHeader)
    (cs : List Char) (ls : List (List Char))
    (hb : parse_batch_header bhl = .ok h) :
    parse_batch idx bhl (('7' :: cs) :: ls) =
      .error (.InvalidStructure (unexpectedInBatchMsg ['7'] (idx + 1))) := by
  rw [parse_batch, hb]
  simp only
  rw [parseEntries_at7]

/-- A type 7 line directly after the file header is rejected as
`InvalidStructure`. -/
theorem parseFiltered_at7 (fhl : List Char) (fh : FileHeader)
    (cs : List Char) (ls : List (List Char))
    (hf : parse_file_header fhl = .ok fh) :
    parseFiltered (fhl :: ('7' :: cs) :: ls) =
      .error (.InvalidStructure (unexpectedTopMsg ['7'] 1)) := by
  rw [parseFiltered, hf]
  simp only
  rw [parseTop, get_record_type_cons]
  simp only
  rw [if_neg (by simp), if_neg (by simp)]

/-- A type 5 or type 9 line at an entry-loop position is rejected as
`InvalidStructure`, not `IncompleteBatch`. -/
theorem parseEntries_at59 (idx : Nat) (c : Char) (cs : List Char)
    (ls : List (List Char)) (hc : c = '5' ∨ c = '9') :
    parseEntries idx ((c :: cs) :: ls) =
      .error (.InvalidStructure (unexpectedInBatchMsg [c] idx)) := by
  rw [parseEntries, get_record_type_cons]
  simp only
  cases hc with
  | inl h5 => subst h5; rw [if_neg (by simp), if_neg (by simp)]
  | inr h9 => subst h9; rw [if_neg (by simp), if_neg (by simp)]

/-- `parse_batch` raises `IncompleteBatch` when the entry loop consumes
all remaining lines without meeting a batch control. -/
theorem parse_batch_incomplete (idx : Nat) (l : List Char) (h : BatchHeader)
    (rest : List (List Char)) (es : List EntryDetail) (i : Nat)
    (hh : parse_batch_header l = .ok h)
    (he : parseEntries (idx + 1) rest = .ok (es, i, [])) :
    parse_batch idx l rest =
      .error (.IncompleteBatch "Missing batch control record") := by
  rw [parse_batch, hh]
  simp only
  rw [he]

/-- After the file header, a type 9 line is decoded as the file control
and every line after it is ignored. -/
theorem parseFiltered_tail_ignored (fhl : List Char) (fh : FileHeader)
    (cs : List Char) (junk : List (List Char)) (fc : FileControl)
    (hf : parse_file_header fhl = .ok fh)
    (hc : parse_file_control ('9' :: cs) = .ok fc) :
    parseFiltered (fhl :: ('9' :: cs) :: junk) =
      .ok { file_header := fh, batches := [], file_control := fc } := by
  rw [parseFiltered, hf]
  simp only
  rw [parseTop, get_record_type_cons]
  simp only
  rw [if_neg (by simp)]
  simp only [if_true]
  rw [hc]

/-- With no line after the file header, the file control is reported
missing. -/
theorem parseFiltered_missing_control (fhl : List Char) (fh : FileHeader)
    (hf : parse_file_header fhl = .ok fh) :
    parseFiltered [fhl] =
      .error (.InvalidStructure "Missing file control record") := by
  rw [parseFiltered, hf]
  simp only
  rw [parseTop]

/-- The entry loop on no lines returns no entries. -/
theorem parseEntries_nil (idx : Nat) : parseEntries idx [] = .ok ([], idx, []) := by
  rw [parseEntries]

/-- The batch loop on no lines returns no batches. -/
theorem parseTop_nil (idx : Nat) : parseTop idx [] = .ok ([], idx, []) := by
  rw [parseTop]

/-- An error of `parse_batch` on a type 5 line propagates out of the
batch loop. -/
theorem parseTop_batch_error (idx : Nat) (cs : List Char)
    (ls : List (List Char)) (er : AchError)
    (hb : parse_batch idx ('5' :: cs) ls = .error er) :
    parseTop idx (('5' :: cs) :: ls) = .error er := by
  rw [parseTop, get_record_type_cons]
  simp only [if_true]
  split
  next a b =>
    rw [hb] at b
    simp only [Except.error.injEq] at b
    rw [b]
  next a b c =>
    rw [hb] at c
    exact absurd c (by simp)

/-- An error of the batch loop propagates out of the structural phase. -/
theorem parseFiltered_top_error (fhl : List Char) (fh : FileHeader)
    (rest : List (List Char)) (er : AchError)
    (hf : parse_file_header fhl = .ok fh)
    (ht : parseTop 1 rest = .error er) :
    parseFiltered (fhl :: rest) = .error er := by
  rw [parseFiltered, hf]
  simp only
  rw [ht]

/-- An error of the entry loop propagates out of `parse_batch`. -/
theorem parse_batch_entries_error (idx : Nat) (l : List Char)
    (h : BatchHeader) (rest : List (List Char)) (er : AchError)
    (hh : parse_batch_header l = .ok h)
    (he : parseEntries (idx + 1) rest = .error er) :
    parse_batch idx l rest = .error er := by
  rw [parse_batch, hh]
  simp only
  rw [he]

/-- C1: for each of the six record kinds, every 94-character line whose
leading discriminant matches the kind decodes without error (given, for
the numeric fields — the entry amount and the count/hash/amount fields
of the two control records — that the trimmed slice parses as an
unsigned integer); every text field of the result is the verbatim slice
of the line at the documented byte range, and every numeric field is
the parsed value of its trimmed slice. -/
theorem claim_C1_record_field_decoding :
    (∀ l : List Char, l.length = 94 → slice l 0 1 = ['1'] →
      parse_file_header l = .ok
        ⟨slice l 0 1, slice l 1 3, slice l 3 13, slice l 13 23,
         slice l 23 29, slice l 29 33, slice l 33 34, slice l 34 37,
         slice l 37 39, slice l 39 40, slice l 40 63, slice l 63 86,
         slice l 86 94⟩) ∧
    (∀ l : List Char, l.length = 94 → slice l 0 1 = ['5'] →
      parse_batch_header l = .ok
        ⟨slice l 0 1, slice l 1 4, slice l 4 20, slice l 20 40,
         slice l 40 50, slice l 50 53, slice l 53 63, slice l 63 69,
         slice l 69 75, slice l 75 78, slice l 78 79, slice l 79 87,
         slice l 87 94⟩) ∧
    (∀ (l : List Char) (n : Nat), l.length = 94 → slice l 0 1 = ['6'] →
      u64FromStr (trim (slice l 29 39)) = .ok n →
      parse_entry_detail l = .ok
        ⟨slice l 0 1, slice l 1 3, slice l 3 11, slice l 11 12,
         slice l 12 29, n, slice l 39 54, slice l 54 76, slice l 76 78,
         slice l 78 79, slice l 79 94, []⟩) ∧
    (∀ l : List Char, l.length = 94 → slice l 0 1 = ['7'] →
      parse_addenda l = .ok
        ⟨slice l 0 1, slice l 1 3, slice l 3 83, slice l 83 87,
         slice l 87 94⟩) ∧
    (∀ (l : List Char) (n1 n2 n3 n4 : Nat), l.length = 94 →
      slice l 0 1 = ['8'] →
      u64FromStr (trim (slice l 4 10)) = .ok n1 →
      u64FromStr (trim (slice l 10 20)) = .ok n2 →
      u64FromStr (trim (slice l 20 32)) = .ok n3 →
      u64FromStr (trim (slice l 32 44)) = .ok n4 →
      parse_batch_control l = .ok
        ⟨slice l 0 1, slice l 1 4, n1, n2, n3, n4, slice l 44 54,
         slice l 54 73, slice l 73 79, slice l 79 87, slice l 87 94⟩) ∧
    (∀ (l : List Char) (n1 n2 n3 n4 n5 n6 : Nat), l.length = 94 →
      slice l 0 1 = ['9'] →
      u64FromStr (trim (slice l 1 7)) = .ok n1 →
      u64FromStr (trim (slice l 7 13)) = .ok n2 →
      u64FromStr (trim (slice l 13 21)) = .ok n3 →
      u64FromStr (trim (slice l 21 31)) = .ok n4 →
      u64FromStr (trim (slice l 31 43)) = .ok n5 →
      u64FromStr (trim (slice l 43 55)) = .ok n6 →
      parse_file_control l = .ok
        ⟨slice l 0 1, n1, n2, n3, n4, n5, n6, slice l 55 94⟩) :=
  ⟨parse_file_header_ok, parse_batch_header_ok, parse_entry_detail_ok,
   parse_addenda_ok, parse_batch_control_ok, parse_file_control_ok⟩

/-- Witness for C1 at the repository sample lines. -/
theorem claim_C1_witness :
    parse_file_header hdrL = .ok fhRec ∧
    parse_batch_header bhL = .ok bhRec ∧
    parse_entry_detail edL = .ok edRec ∧
    parse_addenda adL = .ok adRec ∧
    parse_batch_control bcL = .ok bcRec ∧
    parse_file_control fcL = .ok fcRec :=
  ⟨claim_C1_record_field_decoding.1 hdrL (by decide) (by decide),
   claim_C1_record_field_decoding.2.1 bhL (by decide) (by decide),
   claim_C1_record_field_decoding.2.2.1 edL 1000 (by decide) (by decide)
     (by decide),
   claim_C1_record_field_decoding.2.2.2.1 adL (by decide) (by decide),
   claim_C1_record_field_decoding.2.2.2.2.1 bcL 4 37014587 15000 2213
     (by decide) (by decide) (by decide) (by decide) (by decide) (by decide),
   claim_C1_record_field_decoding.2.2.2.2.2 fcL 1 1 4 37014587 15000 2213
     (by decide) (by decide) (by decide) (by decide) (by decide) (by decide)
     (by decide) (by decide)⟩

/-- C2: addenda lines are attached to exactly the nearest preceding
entry detail, in encounter order across any run of consecutive type 7
lines (first two conjuncts), and a type 7 line with no open entry —
at an entry-loop position, directly after a batch header, or directly
after the file header — makes the parse fail with a structural error
instead of succeeding (last three conjuncts). -/
theorem claim_C2_addenda_attachment :
    (∀ (ls : List (List Char)) (e : EntryDetail) (as : List Addenda),
      (∀ l ∈ ls, l ≠ []) →
      parseAddendaRun (ls.takeWhile (headIs '7')) = .ok as →
      collectAddenda ls e =
        .ok ({ e with addenda := e.addenda ++ as },
          ls.dropWhile (headIs '7'))) ∧
    (∀ (idx : Nat) (cs : List Char) (ls : List (List Char))
      (e : EntryDetail) (as : List Addenda),
      parse_entry_detail ('6' :: cs) = .ok e →
      (∀ l ∈ ls, l ≠ []) →
      parseAddendaRun (ls.takeWhile (headIs '7')) = .ok as →
      parseEntries idx (('6' :: cs) :: ls) =
        Except.map
          (fun r => ({ e with addenda := e.addenda ++ as } :: r.1, r.2))
          (parseEntries (idx + 1 + as.length) (ls.dropWhile (headIs '7')))) ∧
    (∀ (idx : Nat) (cs : List Char) (ls : List (List Char)),
      parseEntries idx (('7' :: cs) :: ls) =
        .error (.InvalidStructure (unexpectedInBatchMsg ['7'] idx))) ∧
    (∀ (idx : Nat) (bhl : List Char) (h : BatchHeader) (cs : List Char)
      (ls : List (List Char)), parse_batch_header bhl = .ok h →
      parse_batch idx bhl (('7' :: cs) :: ls) =
        .error (.InvalidStructure (unexpectedInBatchMsg ['7'] (idx + 1)))) ∧
    (∀ (fhl : List Char) (fh : FileHeader) (cs : List Char)
      (ls : List (List Char)), parse_file_header fhl = .ok fh →
      parseFiltered (fhl :: ('7' :: cs) :: ls) =
        .error (.InvalidStructure (unexpectedTopMsg ['7'] 1))) :=
  ⟨collectAddenda_spec,
   fun idx cs ls e as hp hne hm => parseEntries_entry_step idx cs ls e as hp hne hm,
   parseEntries_at7, parse_batch_at7, parseFiltered_at7⟩

/-- Witness for C2: the sample entry followed by one addenda and the
batch control collects exactly that addenda; an addenda line at the
start of a batch or directly after the file header is a structural
error. -/
theorem claim_C2_witness :
    (collectAddenda [adL, bcL] e0 =
      .ok ({ e0 with addenda := e0.addenda ++ [adRec] },
        List.dropWhile (headIs '7') [adL, bcL])) ∧
    (parseEntries 2 (('6' :: edTail) :: [adL, bcL]) =
      Except.map
        (fun r => ({ edRec with addenda := edRec.addenda ++ [adRec] } :: r.1, r.2))
        (parseEntries (2 + 1 + [adRec].length)
          (List.dropWhile (headIs '7') [adL, bcL]))) ∧
    (parseEntries 2 (('7' :: adTail) :: []) =
      .error (.InvalidStructure (unexpectedInBatchMsg ['7'] 2))) ∧
    (parse_batch 1 bhL (('7' :: adTail) :: []) =
      .error (.InvalidStructure (unexpectedInBatchMsg ['7'] 2))) ∧
    (parseFiltered (hdrL :: ('7' :: adTail) :: []) =
      .error (.InvalidStructure (unexpectedTopMsg ['7'] 1))) :=
  ⟨claim_C2_addenda_attachment.1 [adL, bcL] e0 [adRec] (by decide) (by decide),
   claim_C2_addenda_attachment.2.1 2 edTail [adL, bcL] edRec [adRec]
     (by decide) (by decide) (by decide),
   claim_C2_addenda_attachment.2.2.1 2 adTail [],
   claim_C2_addenda_attachment.2.2.2.1 1 bhL bhRec adTail [] (by decide),
   claim_C2_addenda_attachment.2.2.2.2 hdrL fhRec adTail [] (by decide)⟩

/-- C3 counterexample: the parser accepts an input in which a further
record line (here the single character X) follows the file-control
line, so the file control is not required to be the last record. -/
theorem claim_C3_counterexample :
    (parse_ach_file cexC3).isOk = true ∧
    filteredLines cexC3 = [hdrL, fcL, ['X']] := by
  have hfl : filteredLines cexC3 = [hdrL, fcL, ['X']] := by decide
  have hfc : fcL = '9' :: fcTail := by decide
  refine ⟨?_, hfl⟩
  show (parseFiltered (filteredLines cexC3)).isOk = true
  rw [hfl, hfc]
  rw [parseFiltered_tail_ignored hdrL fhRec fcTail [['X']] fcRec
    (by decide) (by decide)]
  rfl

/-- C3 amended: the file control is mandatory — with no line left after
the batch loop the parse fails with a missing-file-control structural
error — and the first type 9 line at a batch boundary is decoded as the
file control; but the lines after it are ignored rather than rejected:
the parse result does not depend on them at all. -/
theorem claim_C3_file_control_tail_ignored :
    (∀ (fhl : List Char) (fh : FileHeader) (cs : List Char)
      (junk : List (List Char)) (fc : FileControl),
      parse_file_header fhl = .ok fh →
      parse_file_control ('9' :: cs) = .ok fc →
      parseFiltered (fhl :: ('9' :: cs) :: junk) =
        .ok { file_header := fh, batches := [], file_control := fc }) ∧
    (∀ (fhl : List Char) (fh : FileHeader),
      parse_file_header fhl = .ok fh →
      parseFiltered [fhl] =
        .error (.InvalidStructure "Missing file control record")) :=
  ⟨parseFiltered_tail_ignored, parseFiltered_missing_control⟩

/-- Witness for the amended C3: with junk after the sample file-control
line the parse still succeeds, and without a file control it fails. -/
theorem claim_C3_witness :
    (parseFiltered (hdrL :: ('9' :: fcTail) :: [['X']]) =
      .ok { file_header := fhRec, batches := [], file_control := fcRec }) ∧
    (parseFiltered [hdrL] =
      .error (.InvalidStructure "Missing file control record")) :=
  ⟨claim_C3_file_control_tail_ignored.1 hdrL fhRec fcTail [['X']] fcRec
     (by decide) (by decide),
   claim_C3_file_control_tail_ignored.2 hdrL fhRec (by decide)⟩

/-- C4: each of the six record decoders rejects a line whose length is
not 94 with `InvalidLineLength` carrying the actual character count,
and the seven-character input 101 123 is rejected by the whole parse
with `InvalidLineLength 7`. -/
theorem claim_C4_invalid_line_length :
    (∀ l : List Char, l.length ≠ 94 →
      parse_file_header l = .error (.InvalidLineLength l.length)) ∧
    (∀ l : List Char, l.length ≠ 94 →
      parse_batch_header l = .error (.InvalidLineLength l.length)) ∧
    (∀ l : List Char, l.length ≠ 94 →
      parse_entry_detail l = .error (.InvalidLineLength l.length)) ∧
    (∀ l : List Char, l.length ≠ 94 →
      parse_addenda l = .error (.InvalidLineLength l.length)) ∧
    (∀ l : List Char, l.length ≠ 94 →
      parse_batch_control l = .error (.InvalidLineLength l.length)) ∧
    (∀ l : List Char, l.length ≠ 94 →
      parse_file_control l = .error (.InvalidLineLength l.length)) ∧
    parse_ach_file ("101 123".toList) = .error (.InvalidLineLength 7) :=
  ⟨parse_file_header_len, parse_batch_header_len, parse_entry_detail_len,
   parse_addenda_len, parse_batch_control_len, parse_file_control_len,
   by decide⟩

/-- Witness for C4 at a three-character line. -/
theorem claim_C4_witness :
    (parse_file_header ("101".toList) =
      .error (.InvalidLineLength ("101".toList.length))) ∧
    (parse_batch_header ("520".toList) =
      .error (.InvalidLineLength ("520".toList.length))) ∧
    (parse_entry_detail ("622".toList) =
      .error (.InvalidLineLength ("622".toList.length))) ∧
    (parse_addenda ("705".toList) =
      .error (.InvalidLineLength ("705".toList.length))) ∧
    (parse_batch_control ("820".toList) =
      .error (.InvalidLineLength ("820".toList.length))) ∧
    (parse_file_control ("900".toList) =
      .error (.InvalidLineLength ("900".toList.length))) :=
  ⟨claim_C4_invalid_line_length.1 _ (by decide),
   claim_C4_invalid_line_length.2.1 _ (by decide),
   claim_C4_invalid_line_length.2.2.1 _ (by decide),
   claim_C4_invalid_line_length.2.2.2.1 _ (by decide),
   claim_C4_invalid_line_length.2.2.2.2.1 _ (by decide),
   claim_C4_invalid_line_length.2.2.2.2.2.1 _ (by decide)⟩

/-- C5 counterexample: a second batch header while a batch is open is
rejected with `InvalidStructure`, not `IncompleteBatch` as the claim
states. -/
theorem claim_C5_counterexample :
    parse_ach_file cexC5 =
      .error (.InvalidStructure
        "Unexpected record type \x275\x27 in batch at line 2") := by
  have hfl : filteredLines cexC5 = [hdrL, bhL, bhL] := by decide
  have hbh : bhL = '5' :: bhTail := by decide
  have he : parseEntries 2 [bhL] =
      .error (.InvalidStructure (unexpectedInBatchMsg ['5'] 2)) := by
    rw [hbh]
    exact parseEntries_at59 2 '5' bhTail [] (Or.inl rfl)
  have hb : parse_batch 1 bhL [bhL] =
      .error (.InvalidStructure (unexpectedInBatchMsg ['5'] 2)) :=
    parse_batch_entries_error 1 bhL bhRec [bhL] _ (by decide) he
  have ht : parseTop 1 [bhL, bhL] =
      .error (.InvalidStructure (unexpectedInBatchMsg ['5'] 2)) := by
    rw [hbh] at hb ⊢
    exact parseTop_batch_error 1 bhTail [bhL] _ hb
  show parseFiltered (filteredLines cexC5) = _
  rw [hfl]
  have := parseFiltered_top_error hdrL fhRec [bhL, bhL] _ (by decide) ht
  rw [this]
  have hmsg : unexpectedInBatchMsg ['5'] 2 =
      "Unexpected record type \x275\x27 in batch at line 2" := by decide
  rw [hmsg]

/-- C5 amended: a batch whose control record is missing at end-of-input
fails with `IncompleteBatch`; a type 5 or type 9 line encountered while
a batch is open fails with `InvalidStructure` instead. -/
theorem claim_C5_incomplete_batch :
    (∀ (idx : Nat) (l : List Char) (h : BatchHeader)
      (rest : List (List Char)) (es : List EntryDetail) (i : Nat),
      parse_batch_header l = .ok h →
      parseEntries (idx + 1) rest = .ok (es, i, []) →
      parse_batch idx l rest =
        .error (.IncompleteBatch "Missing batch control record")) ∧
    (∀ (idx : Nat) (c : Char) (cs : List Char) (ls : List (List Char)),
      c = '5' ∨ c = '9' →
      parseEntries idx ((c :: cs) :: ls) =
        .error (.InvalidStructure (unexpectedInBatchMsg [c] idx))) ∧
    parse_ach_file (hdrL ++ '\n' :: bhL) =
      .error (.IncompleteBatch "Missing batch control record") :=
  ⟨fun idx l h rest es i hh he => parse_batch_incomplete idx l h rest es i hh he,
   parseEntries_at59,
   by
    have hfl : filteredLines (hdrL ++ '\n' :: bhL) = [hdrL, bhL] := by decide
    have hbh : bhL = '5' :: bhTail := by decide
    have hb : parse_batch 1 bhL [] =
        .error (.IncompleteBatch "Missing batch control record") :=
      parse_batch_incomplete 1 bhL bhRec [] [] 2 (by decide)
        (parseEntries_nil 2)
    have ht : parseTop 1 [bhL] =
        .error (.IncompleteBatch "Missing batch control record") := by
      rw [hbh] at hb ⊢
      exact parseTop_batch_error 1 bhTail [] _ hb
    show parseFiltered (filteredLines (hdrL ++ '\n' :: bhL)) = _
    rw [hfl]
    exact parseFiltered_top_error hdrL fhRec [bhL] _ (by decide) ht⟩

/-- Witness for the amended C5: the sample batch header with no further
lines yields `IncompleteBatch`; a type 5 and a type 9 line at an
entry-loop position yield `InvalidStructure`. -/
theorem claim_C5_witness :
    (parse_batch 1 bhL [] =
      .error (.IncompleteBatch "Missing batch control record")) ∧
    (parseEntries 2 (('5' :: bhTail) :: []) =
      .error (.InvalidStructure (unexpectedInBatchMsg ['5'] 2))) ∧
    (parseEntries 2 (('9' :: fcTail) :: []) =
      .error (.InvalidStructure (unexpectedInBatchMsg ['9'] 2))) :=
  ⟨claim_C5_incomplete_batch.1 1 bhL bhRec [] [] 2 (by decide)
     (parseEntries_nil 2),
   claim_C5_incomplete_batch.2.1 2 '5' bhTail [] (Or.inl rfl),
   claim_C5_incomplete_batch.2.1 2 '9' fcTail [] (Or.inr rfl)⟩

/-- C6: the parse first splits into lines and keeps exactly the lines
that are not all-padding (first conjunct, definitional); parsing any
line sequence gives the same result as parsing it with all padding
lines deleted, so padding lines in any number and position are inert
and never cause errors (second conjunct); and a line survives the
filter exactly when it contains at least one character that is not the
padding digit (third conjunct). -/
theorem claim_C6_padding_filter :
    (∀ content : List Char, parse_ach_file content =
      parseFiltered (List.filter (fun l => ! isPadding l) (splitLines content))) ∧
    (∀ ls : List (List Char),
      parseFiltered (List.filter (fun l => ! isPadding l) ls) =
        parseFiltered (List.filter (fun l => ! isPadding l)
          (List.filter (fun l => ! isPadding l) ls))) ∧
    (∀ (l : List Char) (ls : List (List Char)),
      l ∈ List.filter (fun l => ! isPadding l) ls ↔
        (l ∈ ls ∧ ¬ ∀ c ∈ l, c = '9')) := by
  refine ⟨fun content => rfl, fun ls => ?_, fun l ls => ?_⟩
  · rw [List.filter_filter]
    simp
  · simp [List.mem_filter, isPadding, List.all_eq_true]

/-- Witness for C6 on an input with interleaved padding lines. -/
theorem claim_C6_witness :
    (parse_ach_file ("99\n101 123\n9999".toList) =
      parseFiltered (List.filter (fun l => ! isPadding l)
        (splitLines ("99\n101 123\n9999".toList)))) ∧
    (parseFiltered (List.filter (fun l => ! isPadding l) [hdrL, "99".toList]) =
      parseFiltered (List.filter (fun l => ! isPadding l)
        (List.filter (fun l => ! isPadding l) [hdrL, "99".toList]))) ∧
    ("99".toList ∈ List.filter (fun l => ! isPadding l) [hdrL, "99".toList] ↔
      ("99".toList ∈ [hdrL, "99".toList] ∧ ¬ ∀ c ∈ "99".toList, c = '9')) :=
  ⟨claim_C6_padding_filter.1 ("99\n101 123\n9999".toList),
   claim_C6_padding_filter.2.1 [hdrL, "99".toList],
   claim_C6_padding_filter.2.2 ("99".toList) [hdrL, "99".toList]⟩

/-- C7: the parse fails with `EmptyFile` exactly when no lines remain
after the padding filter; in particular the empty input and an input of
only padding lines give `EmptyFile`. -/
theorem claim_C7_empty_file :
    (∀ content : List Char,
      parse_ach_file content = .error .EmptyFile ↔
        filteredLines content = []) ∧
    parse_ach_file [] = .error .EmptyFile ∧
    parse_ach_file ("99\n9999999999".toList) = .error .EmptyFile := by
  refine ⟨fun content => ⟨fun h => ?_, fun h => ?_⟩, by decide, by decide⟩
  · by_contra hne
    exact (parseFiltered_err (filteredLines content) .EmptyFile h).1 hne rfl
  · show parseFiltered (filteredLines content) = _
    rw [h, parseFiltered]

/-- Witness for C7: an all-padding input has no filtered lines, and the
equivalence turns that into an `EmptyFile` failure. -/
theorem claim_C7_witness :
    filteredLines ("999".toList) = [] ∧
    parse_ach_file ("999".toList) = .error .EmptyFile :=
  ⟨by decide, (claim_C7_empty_file.1 ("999".toList)).mpr (by decide)⟩

/-- C8: every decoder checks the 94-character length before the
discriminant: a 94-character line with the wrong leading character is
rejected with `InvalidRecordType` carrying that character (first six
conjuncts), a line that is both wrong-length and wrong-code is rejected
with `InvalidLineLength`, not `InvalidRecordType` (next six), and a
94-character file-header line starting with X gives
`InvalidRecordType` of X (last conjunct). -/
theorem claim_C8_discriminant_after_length :
    (∀ l : List Char, l.length = 94 → slice l 0 1 ≠ ['1'] →
      parse_file_header l = .error (.InvalidRecordType (slice l 0 1))) ∧
    (∀ l : List Char, l.length = 94 → slice l 0 1 ≠ ['5'] →
      parse_batch_header l = .error (.InvalidRecordType (slice l 0 1))) ∧
    (∀ l : List Char, l.length = 94 → slice l 0 1 ≠ ['6'] →
      parse_entry_detail l = .error (.InvalidRecordType (slice l 0 1))) ∧
    (∀ l : List Char, l.length = 94 → slice l 0 1 ≠ ['7'] →
      parse_addenda l = .error (.InvalidRecordType (slice l 0 1))) ∧
    (∀ l : List Char, l.length = 94 → slice l 0 1 ≠ ['8'] →
      parse_batch_control l = .error (.InvalidRecordType (slice l 0 1))) ∧
    (∀ l : List Char, l.length = 94 → slice l 0 1 ≠ ['9'] →
      parse_file_control l = .error (.InvalidRecordType (slice l 0 1))) ∧
    (∀ l : List Char, l.length ≠ 94 → slice l 0 1 ≠ ['1'] →
      parse_file_header l = .error (.InvalidLineLength l.length)) ∧
    (∀ l : List Char, l.length ≠ 94 → slice l 0 1 ≠ ['5'] →
      parse_batch_header l = .error (.InvalidLineLength l.length)) ∧
    (∀ l : List Char, l.length ≠ 94 → slice l 0 1 ≠ ['6'] →
      parse_entry_detail l = .error (.InvalidLineLength l.length)) ∧
    (∀ l : List Char, l.length ≠ 94 → slice l 0 1 ≠ ['7'] →
      parse_addenda l = .error (.InvalidLineLength l.length)) ∧
    (∀ l : List Char, l.length ≠ 94 → slice l 0 1 ≠ ['8'] →
      parse_batch_control l = .error (.InvalidLineLength l.length)) ∧
    (∀ l : List Char, l.length ≠ 94 → slice l 0 1 ≠ ['9'] →
      parse_file_control l = .error (.InvalidLineLength l.length)) ∧
    parse_file_header xhL = .error (.InvalidRecordType ['X']) :=
  ⟨parse_file_header_code, parse_batch_header_code, parse_entry_detail_code,
   parse_addenda_code, parse_batch_control_code, parse_file_control_code,
   fun l h _ => parse_file_header_len l h,
   fun l h _ => parse_batch_header_len l h,
   fun l h _ => parse_entry_detail_len l h,
   fun l h _ => parse_addenda_len l h,
   fun l h _ => parse_batch_control_len l h,
   fun l h _ => parse_file_control_len l h,
   by decide⟩

/-- Witness for C8: the X-headed 94-character line is an
`InvalidRecordType`, while the same wrong code on a 3-character line is
an `InvalidLineLength`. -/
theorem claim_C8_witness :
    (parse_file_header xhL = .error (.InvalidRecordType (slice xhL 0 1))) ∧
    (parse_file_header ("X01".toList) =
      .error (.InvalidLineLength ("X01".toList.length))) :=
  ⟨claim_C8_discriminant_after_length.1 xhL (by decide) (by decide),
   claim_C8_discriminant_after_length.2.2.2.2.2.2.1 ("X01".toList)
     (by decide) (by decide)⟩

/-- C9: the parse is total — every input yields a parsed file or an
error value — and once a line passes the 94-character check, every
fixed byte range read by any of the six decoders lies within the line:
the range end is at most 94 and the slice has the full documented
width.  (The embedding indexes characters, which matches the byte
indexing of the code exactly on ASCII input.) -/
theorem claim_C9_totality_and_bounds :
    (∀ content : List Char, (∃ f, parse_ach_file content = .ok f) ∨
      (∃ e, parse_ach_file content = .error e)) ∧
    (∀ l : List Char, l.length = 94 → ∀ p ∈ allFieldRanges,
      p.2 ≤ 94 ∧ (slice l p.1 p.2).length = p.2 - p.1) := by
  constructor
  · intro content
    cases h : parse_ach_file content with
    | ok f => exact Or.inl ⟨f, rfl⟩
    | error e => exact Or.inr ⟨e, rfl⟩
  · intro l hl p hp
    have hle : p.2 ≤ 94 := by
      have hall : ∀ q ∈ allFieldRanges, q.2 ≤ 94 := by decide
      exact hall p hp
    refine ⟨hle, ?_⟩
    simp only [slice, List.length_take, List.length_drop, hl]
    omega

/-- Witness for C9 at the empty input and the amount field range of the
sample entry line. -/
theorem claim_C9_witness :
    ((∃ f, parse_ach_file [] = .ok f) ∨
      (∃ e, parse_ach_file [] = .error e)) ∧
    (39 ≤ 94 ∧ (slice edL 29 39).length = 39 - 29) :=
  ⟨claim_C9_totality_and_bounds.1 [],
   claim_C9_totality_and_bounds.2 edL (by decide) (29, 39) (by decide)⟩

/-- C10: empty physical lines are discarded by the padding filter
(every surviving line is nonempty), the parse never returns
`InvalidLineLength 0`, and an input consisting only of line terminators
yields `EmptyFile`. -/
theorem claim_C10_empty_lines :
    (∀ (content : List Char) (l : List Char),
      l ∈ filteredLines content → l ≠ []) ∧
    (∀ content : List Char,
      parse_ach_file content ≠ .error (.InvalidLineLength 0)) ∧
    parse_ach_file ("\n\r\n\n".toList) = .error .EmptyFile := by
  refine ⟨filteredLines_ne_nil, fun content h => ?_, by decide⟩
  exact (parseFiltered_err (filteredLines content) _ h).2
    (filteredLines_ne_nil content) rfl

/-- Witness for C10: the sample header line survives the filter and is
nonempty, and a short input is rejected with its own length, never
with length zero. -/
theorem claim_C10_witness :
    hdrL ≠ [] ∧
    parse_ach_file ("101 123".toList) ≠ .error (.InvalidLineLength 0) :=
  ⟨claim_C10_empty_lines.1 hdrL hdrL (by decide),
   claim_C10_empty_lines.2.1 ("101 123".toList)⟩

end RsAch
